import Mathlib

/-!
Shallow embedding of the EPUB content-extraction engine of the repository
(the `loadEpub` / `extractMetadata` / `extractChapters` / `extractTitle` /
`extractTextFromHtml` functions of the application source).

Strings are modelled as `List Char`.  The source works by JavaScript regex
scanning (`String.prototype.replace` with global flag, `String.prototype.match`);
each regex used by the source is small enough that its match semantics
(left-to-right scanning, greedy `[^>]*` with backtracking, lazy `(.*?)`,
case-insensitive flag) is implemented directly by a dedicated deterministic
scanner below.  Recursion is fuelled by the length of the scanned string so
that every definition is structural and evaluates inside the kernel.
-/

set_option maxRecDepth 100000

namespace Epub

/-- Strings as lists of characters. -/
abbrev Str := List Char

/-- Convert a Lean string literal to the `List Char` representation. -/
def str (s : String) : Str := s.toList

/-- JavaScript `\s` (the WhiteSpace and LineTerminator productions, the set
used by the source's `\s` regexes and by `String.prototype.trim`): ASCII
whitespace, NBSP, U+1680, U+2000-U+200A, U+2028, U+2029, U+202F, U+205F,
U+3000 and U+FEFF. -/
def isWS (c : Char) : Bool :=
  c == ' ' || c == '\t' || c == '\n' || c == '\r' || c == '\x0b' || c == '\x0c' ||
    c == '\u00A0' || c == '\u1680' ||
    (Nat.ble 0x2000 c.toNat && Nat.ble c.toNat 0x200A) ||
    c.toNat == 0x2028 || c.toNat == 0x2029 || c.toNat == 0x202F ||
    c.toNat == 0x205F || c.toNat == 0x3000 || c.toNat == 0xFEFF

/-- Case-insensitive match of one pattern character against a subject
character: the `i` flag canonicalizes both sides, so an uppercase pattern
character (e.g. from an extracted title interpolated into the title-removal
regex) also matches its lowercase counterpart. -/
def matchesCI (p c : Char) : Bool :=
  c == p || (p.isLower && c.toNat + 32 == p.toNat) ||
    (p.isUpper && c.toNat == p.toNat + 32)

/-- Characters excluded by an unflagged JavaScript `.` (dot): the line
terminators LF, CR, U+2028 and U+2029. -/
def isDotExcl (c : Char) : Bool :=
  c == '\n' || c == '\r' || c.toNat == 0x2028 || c.toNat == 0x2029

/-- Test `pmatch p s` : the literal `p` is a prefix of `s` (case-sensitive). -/
def pmatch : Str → Str → Bool
  | [], _ => true
  | _ :: _, [] => false
  | a :: p, c :: s => a == c && pmatch p s

/-- Test `pmatchCI p s` : the literal `p` is a prefix of `s`, case-insensitively
(the pattern `p` is written the way it appears in the source's regex). -/
def pmatchCI : Str → Str → Bool
  | [], _ => true
  | _ :: _, [] => false
  | a :: p, c :: s => matchesCI a c && pmatchCI p s

/-- Predicate: `t` occurs as a contiguous substring of `s`. -/
def Occurs (t s : Str) : Prop := ∃ a b, s = a ++ t ++ b

/-- Boolean substring test (used where the source calls `String.includes`). -/
def occursB (t : Str) : Str → Bool
  | [] => pmatch t []
  | c :: s => pmatch t (c :: s) || occursB t s

/-- Index of the first occurrence of a character, if any. -/
def chIdx (ch : Char) : Str → Option Nat
  | [] => none
  | c :: s => if c == ch then some 0 else (chIdx ch s).map Nat.succ

/-- Index of the first `>` (used to close a `[^>]*>` tail of a tag pattern). -/
def gtIdx (s : Str) : Option Nat := chIdx '>' s

/-- Length of the maximal leading run of non-`>` characters
(the span available to a greedy `[^>]*`). -/
def maxNonGt (s : Str) : Nat := (s.takeWhile (fun c => !(c == '>'))).length

/-- Length of the maximal leading whitespace run (greedy `\s*`). -/
def wsRun (s : Str) : Nat := (s.takeWhile isWS).length

/-- Length of the maximal leading run of `\r`/`\n` characters (greedy `[\r\n]+`). -/
def crlfRun (s : Str) : Nat := (s.takeWhile (fun c => c == '\r' || c == '\n')).length

/-- Length of the maximal leading run of `\n` characters (greedy `\n{3,}`). -/
def nlRun (s : Str) : Nat := (s.takeWhile (fun c => c == '\n')).length

/-- Drop leading whitespace. -/
def dropWS (s : Str) : Str := s.dropWhile isWS

/-- JavaScript `String.prototype.trim`. -/
def trimWS (s : Str) : Str := (dropWS (dropWS s.reverse).reverse)

/-- JavaScript `split('\n')`. -/
def splitNl : Str → List Str
  | [] => [[]]
  | c :: s =>
    if c == '\n' then [] :: splitNl s
    else
      match splitNl s with
      | l :: ls => (c :: l) :: ls
      | [] => [[c]]

/-- JavaScript `Array.prototype.join('\n')`. -/
def joinNl : List Str → Str
  | [] => []
  | [l] => l
  | l :: ls => l ++ '\n' :: joinNl ls

/-!  ### The generic global-replace engine

`scanGo try fuel s` mirrors a JavaScript global `String.replace`: at each
position it asks `try` whether the regex matches there; on `some (r, k)` it
emits the replacement `r` and resumes scanning `k` characters further on
(`k ≥ 1` for every `try` below); on `none` it copies one character.  -/

def scanGo (t : Str → Option (Str × Nat)) : Nat → Str → Str
  | _, [] => []
  | 0, s => s
  | n + 1, c :: s =>
    match t (c :: s) with
    | some (r, k) => r ++ scanGo t n (List.drop (k - 1) s)
    | none => c :: scanGo t n s

/-- Run the replace engine with enough fuel for the whole string. -/
def scanRun (t : Str → Option (Str × Nat)) (s : Str) : Str := scanGo t s.length s

/-- Matcher of a literal pattern (case-sensitive), e.g. the entity regexes. -/
def tryLit (p r : Str) (s : Str) : Option (Str × Nat) :=
  if !p.isEmpty && pmatch p s then some (r, p.length) else none

/-- Replacement `replaceAll p r s` : JavaScript `s.replace(/p/g, r)` for a literal `p`. -/
def replaceAll (p r s : Str) : Str := scanRun (tryLit p r) s

/-!  ### Entity decoding (the fourteen sequential literal replaces) -/

/-- The source's entity table, in the exact order the replaces are applied. -/
def entityPairs : List (Str × Str) :=
  [ (str "&nbsp;",   str " "),
    (str "&amp;",    str "&"),
    (str "&lt;",     str "<"),
    (str "&gt;",     str ">"),
    (str "&quot;",   str "\""),
    (str "&#39;",    str "'"),
    (str "&apos;",   str "'"),
    (str "&mdash;",  str "—"),
    (str "&ndash;",  str "–"),
    (str "&hellip;", str "…"),
    (str "&rsquo;",  str "'"),
    (str "&lsquo;",  str "'"),
    (str "&rdquo;",  str "\""),
    (str "&ldquo;",  str "\"") ]

/-- The entity-decoding block of `extractTextFromHtml` (source lines 330-344):
fourteen global literal replaces applied one after the other. -/
def decodeEntities (s : Str) : Str :=
  entityPairs.foldl (fun acc pr => replaceAll pr.1 pr.2 acc) s

/-!  ### Tag matchers

Each `try…` below decides, at the current scan position, whether one of the
source's tag regexes matches there, and if so returns the replacement string
together with the total number of characters the match consumes.  -/

/-- Lazy tail `([\s\S]*?)CLOSE` (or `(.*?)CLOSE` when `allowNl = false`):
scan forward for the first case-insensitive occurrence of `closeLit`,
returning the skipped group and the length consumed including `closeLit`. -/
def lazyClose (closeLit : Str) (allowNl : Bool) : Str → Option (Str × Nat)
  | [] => if pmatchCI closeLit [] then some ([], closeLit.length) else none
  | c :: s =>
    if pmatchCI closeLit (c :: s) then some ([], closeLit.length)
    else if !allowNl && isDotExcl c then none
    else (lazyClose closeLit allowNl s).map (fun g => (c :: g.1, g.2 + 1))

/-- Match `OPEN[^>]*>(LAZY)CLOSE` at the current position, returning the lazy
group and the consumed length. -/
def tagGroupAt (openLit closeLit : Str) (allowNl : Bool) (s : Str) :
    Option (Str × Nat) :=
  if pmatchCI openLit s then
    match gtIdx (s.drop openLit.length) with
    | some g =>
      match lazyClose closeLit allowNl (s.drop (openLit.length + g + 1)) with
      | some (grp, k) => some (grp, openLit.length + g + 1 + k)
      | none => none
    | none => none
  else none

/-- First (leftmost) match of `OPEN[^>]*>(LAZY)CLOSE` anywhere in the string,
returning the lazy group (the source's single-match `String.match` with a
group, as used for `<body>`, `<h1>`, `<dc:title>`, …). -/
def findTagGroup (openLit closeLit : Str) (allowNl : Bool) : Str → Option Str
  | [] => (tagGroupAt openLit closeLit allowNl []).map (·.1)
  | c :: s =>
    match tagGroupAt openLit closeLit allowNl (c :: s) with
    | some (grp, _) => some grp
    | none => findTagGroup openLit closeLit allowNl s

/-- Pattern `OPEN[^>]*>[\s\S]*?CLOSE` removed outright (script/style/header/footer). -/
def tryBlock (openLit closeLit : Str) (s : Str) : Option (Str × Nat) :=
  (tagGroupAt openLit closeLit true s).map (fun g => ([], g.2))

/-- Pattern `LIT[^>]*>` replaced by `rep` (open tags such as `<p[^>]*>`, `<li[^>]*>`). -/
def tryOpenTag (lit rep : Str) (s : Str) : Option (Str × Nat) :=
  if pmatchCI lit s then
    (gtIdx (s.drop lit.length)).map (fun g => (rep, lit.length + g + 1))
  else none

/-- A case-insensitive literal replaced by `rep` (close tags such as `</p>`). -/
def tryLitCI (lit rep : Str) (s : Str) : Option (Str × Nat) :=
  if pmatchCI lit s then some (rep, lit.length) else none

/-- Pattern `<\/?TAG[^>]*>` replaced by `rep` (the `ol`/`ul`/`nav` wrapper regexes):
the optional slash is greedy, so the closing form is tried first. -/
def tryWrap2 (litSlash lit rep : Str) (s : Str) : Option (Str × Nat) :=
  match tryOpenTag litSlash rep s with
  | some m => some m
  | none => tryOpenTag lit rep s

/-- Pattern `<ol[^>]*>\s*<li` (and the `ul` twin) replaced by a literal. -/
def tryOlLi (lit rep : Str) (s : Str) : Option (Str × Nat) :=
  if pmatchCI lit s then
    match gtIdx (s.drop lit.length) with
    | some g =>
      let rest := s.drop (lit.length + g + 1)
      let w := wsRun rest
      if pmatchCI (str "<li") (rest.drop w) then
        some (rep, lit.length + g + 1 + w + 3)
      else none
    | none => none
  else none

/-- Pattern `<a[^>]*>(.*?)<\/a>` replaced by its group (`$1`); the dot does not cross
a newline. -/
def tryAnchor (s : Str) : Option (Str × Nat) :=
  tagGroupAt (str "<a") (str "</a>") false s

/-- Pattern `<\/p>\s*<p[^>]*>` replaced by a blank line. -/
def tryPP (s : Str) : Option (Str × Nat) :=
  if pmatchCI (str "</p>") s then
    let rest := s.drop 4
    let w := wsRun rest
    if pmatchCI (str "<p") (rest.drop w) then
      (gtIdx (rest.drop (w + 2))).map (fun g => (str "\n\n", 4 + w + 2 + g + 1))
    else none
  else none

/-- Pattern `<br\s*\/?>` replaced by a newline. -/
def tryBr (s : Str) : Option (Str × Nat) :=
  if pmatchCI (str "<br") s then
    let rest := s.drop 3
    let w := wsRun rest
    match rest.drop w with
    | '>' :: _ => some (str "\n", 3 + w + 1)
    | '/' :: '>' :: _ => some (str "\n", 3 + w + 2)
    | _ => none
  else none

/-- Residual-tag stripping `<[^>]+>` (case-sensitivity is moot here). -/
def tryStrip (s : Str) : Option (Str × Nat) :=
  match s with
  | c :: rest =>
    if c == '<' then
      match gtIdx rest with
      | some g => if 1 ≤ g then some ([], g + 2) else none
      | none => none
    else none
  | [] => none

/-- The closing part `<\/div>\s*<\/div>\s*<\/div>` of the title-page regex. -/
def divCloseSeq (s : Str) : Option Nat :=
  if pmatchCI (str "</div>") s then
    let w1 := wsRun (s.drop 6)
    if pmatchCI (str "</div>") (s.drop (6 + w1)) then
      let w2 := wsRun (s.drop (6 + w1 + 6))
      if pmatchCI (str "</div>") (s.drop (6 + w1 + 6 + w2)) then
        some (6 + w1 + 6 + w2 + 6)
      else none
    else none
  else none

/-- Lazy search for the earliest position where a sub-matcher succeeds,
returning (offset, matched length). -/
def findSub (m : Str → Option Nat) : Str → Option (Nat × Nat)
  | [] => (m []).map (fun k => (0, k))
  | c :: s =>
    match m (c :: s) with
    | some k => some (0, k)
    | none => (findSub m s).map (fun p => (p.1 + 1, p.2))

/-- Pattern `<div\s+class="titlepage"[^>]*>[\s\S]*?<\/div>\s*<\/div>\s*<\/div>`
removed outright. -/
def tryTitlepage (s : Str) : Option (Str × Nat) :=
  if pmatchCI (str "<div") s then
    let rest := s.drop 4
    let w := wsRun rest
    if 1 ≤ w && pmatchCI (str "class=\"titlepage\"") (rest.drop w) then
      match gtIdx (rest.drop (w + 17)) with
      | some g =>
        match findSub divCloseSeq (rest.drop (w + 17 + g + 1)) with
        | some (off, k) => some ([], 4 + w + 17 + g + 1 + off + k)
        | none => none
      | none => none
    else none
  else none

/-- After the extracted title has been matched, the closing
`\s*<\/h[1-6]>` part of the title-removal regex. -/
def headClose (s : Str) : Option Nat :=
  let w := wsRun s
  match s.drop w with
  | '<' :: '/' :: c :: d :: '>' :: _ =>
    if matchesCI 'h' c && ('1' ≤ d && d ≤ '6') then some (w + 5) else none
  | _ => none

/-- Greedy `\s*` before the title with backtracking: try the run lengths
from `k` downwards until the rest of the pattern matches. -/
def headTitleK (ttl : Str) (pos : Str) : Nat → Option Nat
  | 0 =>
    if pmatchCI ttl pos then
      (headClose (pos.drop ttl.length)).map (fun k => ttl.length + k)
    else none
  | k + 1 =>
    match
      (if pmatchCI ttl (pos.drop (k + 1)) then
        (headClose ((pos.drop (k + 1)).drop ttl.length)).map
          (fun j => k + 1 + ttl.length + j)
      else none) with
    | some r => some r
    | none => headTitleK ttl pos k

/-- Pattern `<h[1-6][^>]*>\s*TITLE\s*<\/h[1-6]>` removed (title de-duplication). -/
def tryHeadTitle (ttl : Str) (s : Str) : Option (Str × Nat) :=
  match s with
  | '<' :: c :: d :: rest =>
    if matchesCI 'h' c && ('1' ≤ d && d ≤ '6') then
      match gtIdx rest with
      | some g =>
        let pos := rest.drop (g + 1)
        (headTitleK ttl pos (wsRun pos)).map (fun k => ([], 3 + g + 1 + k))
      | none => none
    else none
  | _ => none

/-- Pattern `[\r\n]+` replaced by a single space (whitespace pass 1a). -/
def tryCrlf (s : Str) : Option (Str × Nat) :=
  match s with
  | c :: _ => if c == '\r' || c == '\n' then some (str " ", crlfRun s) else none
  | [] => none

/-- Pattern `\s+` replaced by a single space (whitespace pass 1b, also per line). -/
def trySpaces (s : Str) : Option (Str × Nat) :=
  match s with
  | c :: _ => if isWS c then some (str " ", wsRun s) else none
  | [] => none

/-- Collapse whitespace runs to single spaces. -/
def collapseWS (s : Str) : Str := scanRun trySpaces s

/-- Pattern `\n{3,}` replaced by exactly two newlines. -/
def tryNl3 (s : Str) : Option (Str × Nat) :=
  match s with
  | c :: _ =>
    if c == '\n' then
      let r := nlRun s
      if 3 ≤ r then some (str "\n\n", r) else none
    else none
  | [] => none

/-- Index (within the leading whitespace run) of the last `\n`, if any:
this is where the greedy `\s*` of `\n•\s*\n` backtracks to. -/
def lastNlInRun : Str → Option Nat
  | [] => none
  | c :: s =>
    if isWS c then
      match lastNlInRun s with
      | some j => some (j + 1)
      | none => if c == '\n' then some 0 else none
    else none

/-- Pattern `\n•\s*\n` replaced by a single newline (bullet-only lines dropped). -/
def tryBulletLine (s : Str) : Option (Str × Nat) :=
  match s with
  | c :: d :: rest =>
    if c == '\n' && d == '•' then
      (lastNlInRun rest).map (fun j => (str "\n", 2 + j + 1))
    else none
  | _ => none

/-- For `\n\s*\n…`: starting from run length `k` and backtracking downwards,
the largest `k` whose position holds `\n` and whose continuation succeeds. -/
def nnK (cont : Str → Option Nat) (rest : Str) : Nat → Option Nat
  | 0 =>
    match rest with
    | '\n' :: after => (cont after).map (fun j => 1 + j)
    | _ => none
  | k + 1 =>
    match
      (match rest.drop (k + 1) with
       | '\n' :: after => (cont after).map (fun j => k + 1 + 1 + j)
       | _ => none) with
    | some r => some r
    | none => nnK cont rest k

/-- Pattern `\n\s*\n\s*\n` replaced by exactly two newlines. -/
def tryNnn (s : Str) : Option (Str × Nat) :=
  match s with
  | c :: rest =>
    if c == '\n' then
      (nnK (fun after => nnK (fun _ => some 0) after (wsRun after)) rest
          (wsRun rest)).map (fun k => (str "\n\n", 1 + k))
    else none
  | [] => none

/-!  ### The Chapter Transducer (`extractTextFromHtml`, source lines 270-366) -/

def extractTextFromHtml (html : Str) (titleToRemove : Option Str) : Str :=
  let t0 := match findTagGroup (str "<body") (str "</body>") true html with
            | some g => g
            | none => html
  let t1 := scanRun (tryBlock (str "<script") (str "</script>")) t0
  let t2 := scanRun (tryBlock (str "<style") (str "</style>")) t1
  let t3 := scanRun (tryBlock (str "<header") (str "</header>")) t2
  let t4 := scanRun (tryBlock (str "<footer") (str "</footer>")) t3
  let t5 := scanRun tryTitlepage t4
  let t6 := match titleToRemove with
            | some ttl => scanRun (tryHeadTitle ttl) t5
            | none => t5
  let t7 := scanRun (tryOpenTag (str "<section") []) t6
  let t8 := scanRun (tryLitCI (str "</section>") []) t7
  let t9 := scanRun (tryOpenTag (str "<div") []) t8
  let t10 := scanRun (tryLitCI (str "</div>") []) t9
  let t11 := scanRun tryCrlf t10
  let t12 := collapseWS t11
  let t13 := scanRun (tryOlLi (str "<ol") (str "<ol><li")) t12
  let t14 := scanRun (tryOlLi (str "<ul") (str "<ul><li")) t13
  let t15 := scanRun (tryOpenTag (str "<li") (str "\n• ")) t14
  let t16 := scanRun (tryLitCI (str "</li>") []) t15
  let t17 := scanRun (tryWrap2 (str "</ol") (str "<ol") (str "\n")) t16
  let t18 := scanRun (tryWrap2 (str "</ul") (str "<ul") (str "\n")) t17
  let t19 := scanRun (tryWrap2 (str "</nav") (str "<nav") []) t18
  let t20 := scanRun tryAnchor t19
  let t21 := scanRun tryPP t20
  let t22 := scanRun (tryLitCI (str "</p>") (str "\n\n")) t21
  let t23 := scanRun (tryOpenTag (str "<p") []) t22
  let t24 := scanRun tryBr t23
  let t25 := decodeEntities t24
  let t26 := scanRun tryStrip t25
  let t27 := joinNl ((splitNl t26).map (fun l => collapseWS (trimWS l)))
  let t28 := scanRun tryNl3 t27
  let t29 := scanRun tryBulletLine t28
  let t30 := scanRun tryNnn t29
  trimWS t30

/-- Title extraction (`extractTitle`, source lines 250-268): first `<h1>`,
else `<h2>`, else `<title>`, nested tags stripped, trimmed, default
`"Chapter"`. -/
def extractTitle (html : Str) : Str :=
  match findTagGroup (str "<h1") (str "</h1>") false html with
  | some g => trimWS (scanRun tryStrip g)
  | none =>
    match findTagGroup (str "<h2") (str "</h2>") false html with
    | some g => trimWS (scanRun tryStrip g)
    | none =>
      match findTagGroup (str "<title") (str "</title>") false html with
      | some g => trimWS (scanRun tryStrip g)
      | none => str "Chapter"

/-!  ### Attribute matchers for the package document

The source scans the OPF with regexes of the shapes
`LIT0[^>]*LIT1[^>]*LIT2"([^"]+)"` (two greedy gaps, value at the end),
`LIT0[^>]*LIT1"([^"]+)"[^>]*LIT2` (value in the middle) and
`LIT0[^>]*LIT1"([^"]+)"` (one gap).  Greedy `[^>]*` backtracks from the
longest gap downwards; `([^"]+)` is a non-empty run up to the next quote. -/

/-- Pattern `([^"]+)"`: a non-empty run of non-quote characters followed by `"`. -/
def quoteVal (s : Str) : Option Str :=
  match chIdx '"' s with
  | some 0 => none
  | some (q + 1) => some (s.take (q + 1))
  | none => none

/-- Backtracking search over a greedy gap: largest `k ≤ fuel` whose
continuation succeeds. -/
def descK (f : Nat → Option α) : Nat → Option α
  | 0 => f 0
  | k + 1 =>
    match f (k + 1) with
    | some r => some r
    | none => descK f k

/-- Case-sensitivity switch: the OPF regexes for the cover carry the `i`
flag, the spine/manifest ones do not. -/
def pm (ci : Bool) (p s : Str) : Bool := if ci then pmatchCI p s else pmatch p s

/-- Pattern `LIT0[^>]*LIT1[^>]*LIT2([^"]+)"` at the current position. -/
def shapeA (ci : Bool) (lit0 lit1 lit2 : Str) (s : Str) : Option Str :=
  if pm ci lit0 s then
    let rest := s.drop lit0.length
    descK (fun k1 =>
      if pm ci lit1 (rest.drop k1) then
        let rest2 := rest.drop (k1 + lit1.length)
        descK (fun k2 =>
          if pm ci lit2 (rest2.drop k2) then
            quoteVal (rest2.drop (k2 + lit2.length))
          else none) (maxNonGt rest2)
      else none) (maxNonGt rest)
  else none

/-- Pattern `LIT0[^>]*LIT1([^"]+)"[^>]*LIT2` at the current position. -/
def shapeC (ci : Bool) (lit0 lit1 lit2 : Str) (s : Str) : Option Str :=
  if pm ci lit0 s then
    let rest := s.drop lit0.length
    descK (fun k1 =>
      if pm ci lit1 (rest.drop k1) then
        match quoteVal (rest.drop (k1 + lit1.length)) with
        | some v =>
          let rest2 := rest.drop (k1 + lit1.length + v.length + 1)
          descK (fun k2 =>
            if pm ci lit2 (rest2.drop k2) then some v else none)
            (maxNonGt rest2)
        | none => none
      else none) (maxNonGt rest)
  else none

/-- First (leftmost) position where an at-position matcher succeeds. -/
def findVal (m : Str → Option α) : Str → Option α
  | [] => m []
  | c :: s =>
    match m (c :: s) with
    | some v => some v
    | none => findVal m s

/-- Pattern `/LIT"([^"]+)"/` : first occurrence of a plain literal attribute pattern
(case-sensitive), e.g. `full-path="…"`, `href="…"`, `idref="…"`. -/
def firstAttrVal (lit : Str) : Str → Option Str :=
  findVal (fun s => if pmatch lit s then quoteVal (s.drop lit.length) else none)

/-!  ### Data model -/

structure BookMetadata where
  title : Str
  author : Str
  coverImage : Option Str
deriving DecidableEq, Repr

structure Chapter where
  title : Str
  content : Str
deriving DecidableEq, Repr

structure LoadResult where
  metadata : BookMetadata
  chapters : List Chapter
deriving DecidableEq, Repr

/-- The archive view: named entries with their contents (the JSZip handle). -/
abbrev Zip := List (Str × Str)

/-- Lookup `zip.file(path)` : exact-path lookup. -/
def zfile (z : Zip) (p : Str) : Option Str :=
  match z.find? (fun e => e.1 == p) with
  | some e => some e.2
  | none => none

/-!  ### Cover resolution (`extractMetadata`, source lines 124-191) -/

/-- Method 1, first ordering: `<meta[^>]*name="cover"[^>]*content="([^"]+)"`. -/
def coverMatch1 (opf : Str) : Option Str :=
  findVal (shapeA true (str "<meta") (str "name=\"cover\"") (str "content=\"")) opf

/-- Method 1, second ordering: `<meta[^>]*content="([^"]+)"[^>]*name="cover"`. -/
def coverMatch2 (opf : Str) : Option Str :=
  findVal (shapeC true (str "<meta") (str "content=\"") (str "name=\"cover\"")) opf

/-- The EPUB 2 cover id, if a `name="cover"` meta is present
(first ordering tried first, as in the source). -/
def metaCoverId (opf : Str) : Option Str :=
  match coverMatch1 opf with
  | some v => some v
  | none => coverMatch2 opf

/-- Method 2, first ordering:
`<item[^>]*properties="cover-image"[^>]*href="([^"]+)"`. -/
def epub3CoverA (opf : Str) : Option Str :=
  findVal (shapeA true (str "<item") (str "properties=\"cover-image\"") (str "href=\"")) opf

/-- Method 2, second ordering:
`<item[^>]*href="([^"]+)"[^>]*properties="cover-image"`. -/
def epub3CoverB (opf : Str) : Option Str :=
  findVal (shapeC true (str "<item") (str "href=\"") (str "properties=\"cover-image\"")) opf

/-- Characters that are regex-special in a JavaScript pattern (they do not
stand for themselves when interpolated into `new RegExp`). -/
def regexSpecial (c : Char) : Bool :=
  c == '\\' || c == '^' || c == '$' || c == '.' || c == '*' || c == '+' ||
    c == '?' || c == '(' || c == ')' || c == '[' || c == ']' || c == '{' ||
    c == '}' || c == '|'

/-- The source builds the method-3 lookup patterns by interpolating the
cover id **unescaped** into `new RegExp` (both orderings); the interpolation
is literal exactly when the id contains no regex-special character. -/
def regexSafe (id : Str) : Bool := id.all (fun c => !(regexSpecial c))

/-- Method 3: manifest lookup of the cover id, both attribute orderings
(`coverItemMatch1?.[1] || coverItemMatch2?.[1]`); meaningful only for
`regexSafe` ids, where the dynamically built pattern matches the id
literally and case-insensitively. -/
def coverItemHref (opf cid : Str) : Option Str :=
  match findVal (shapeA true (str "<item")
      (str "id=\"" ++ cid ++ str "\"") (str "href=\"")) opf with
  | some v => some v
  | none =>
    findVal (shapeC true (str "<item")
      (str "href=\"") (str "id=\"" ++ cid ++ str "\"")) opf

/-- Splitting `split('.')` on a path. -/
def splitDot : Str → List Str
  | [] => [[]]
  | c :: s =>
    if c == '.' then [] :: splitDot s
    else
      match splitDot s with
      | l :: ls => (c :: l) :: ls
      | [] => [[c]]

/-- ASCII lowercasing (JavaScript `toLowerCase` on the extensions met here). -/
def lowerStr (s : Str) : Str :=
  s.map (fun c => if 'A' ≤ c ∧ c ≤ 'Z' then Char.ofNat (c.toNat + 32) else c)

/-- Extension `href.split('.').pop()?.toLowerCase()` : the file extension. -/
def extOf (href : Str) : Str := lowerStr ((splitDot href).getLastD [])

/-- Read the resolved cover entry and build the `data:` URI (the shared body
of the three strategies): `jpg`/`jpeg` → `image/jpeg`, anything else →
`image/png`. -/
def readCover (z : Zip) (opfDir href : Str) : Option Str :=
  match zfile z (opfDir ++ href) with
  | none => none
  | some data =>
    let ext := extOf href
    let mime := if ext = str "jpg" ∨ ext = str "jpeg" then str "image/jpeg"
                else str "image/png"
    some (str "data:" ++ mime ++ str ";base64," ++ data)

/-- The cover-resolution control flow exactly as in the source:
method 1 extracts an id; method 2 runs only when no id was found; method 3
runs when an id was found and no image has been produced.  Method 3 first
compiles two patterns with the id interpolated unescaped: for an id made of
regex-special characters this construction changes the pattern or throws a
`SyntaxError` (e.g. an id that unbalances the groups); the model keeps the
literal lookup on the `regexSafe` domain and reports every other id as the
thrown-error path — ids whose metacharacters would happen to compile with
altered matching are folded into that path as well, an over-approximation
confined to inputs outside the literal domain. -/
def extractCoverImage (opf : Str) (z : Zip) (opfDir : Str) :
    Except Str (Option Str) :=
  let coverId := metaCoverId opf
  let c1 : Option Str :=
    match coverId with
    | some _ => none
    | none =>
      match epub3CoverA opf with
      | some href => readCover z opfDir href
      | none =>
        match epub3CoverB opf with
        | some href => readCover z opfDir href
        | none => none
  match coverId, c1 with
  | some cid, none =>
    if regexSafe cid then
      Except.ok
        (match coverItemHref opf cid with
         | some href => readCover z opfDir href
         | none => none)
    else Except.error (str "Invalid regular expression")
  | _, _ => Except.ok c1

/-- Title resolution: the pattern `<dc:title[^>]*>(.*?)<\/dc:title>` — a
lazy group whose dot cannot cross a line terminator — trimmed, or the
literal placeholder when no single-line element matches. -/
def titleOf (opf : Str) : Str :=
  match findTagGroup (str "<dc:title") (str "</dc:title>") false opf with
  | some g => trimWS g
  | none => str "Unknown Title"

/-- Author resolution: the pattern `<dc:creator[^>]*>(.*?)<\/dc:creator>`,
trimmed, or the literal placeholder when no single-line element matches. -/
def authorOf (opf : Str) : Str :=
  match findTagGroup (str "<dc:creator") (str "</dc:creator>") false opf with
  | some g => trimWS g
  | none => str "Unknown Author"

/-- Metadata `extractMetadata` (source lines 110-194): first `dc:title` /
`dc:creator` element text (trimmed) or the literal placeholders, plus the
resolved cover; the cover resolution can abort the whole extraction (the
unescaped `new RegExp` interpolation of the meta cover id). -/
def extractMetadata (opf : Str) (z : Zip) (opfDir : Str) :
    Except Str BookMetadata :=
  match extractCoverImage opf z opfDir with
  | Except.error e => Except.error e
  | Except.ok cover =>
    Except.ok { title := titleOf opf, author := authorOf opf, coverImage := cover }

/-!  ### Spine, manifest and chapters (`extractChapters`, source lines 196-248) -/

/-- Pattern `<itemref[^>]*idref="([^"]+)"` at the current position: the length of the
full match (greedy gap backtracking from the longest). -/
def itemrefAt (s : Str) : Option Nat :=
  if pmatch (str "<itemref") s then
    let rest := s.drop 8
    descK (fun k =>
      if pmatch (str "idref=\"") (rest.drop k) then
        (quoteVal (rest.drop (k + 7))).map (fun v => 8 + k + 7 + v.length + 1)
      else none) (maxNonGt rest)
  else none

/-- Pattern `<item[^>]*>` at the current position: the length of the full match. -/
def itemTagAt (s : Str) : Option Nat :=
  if pmatch (str "<item") s then
    (gtIdx (s.drop 5)).map (fun g => 5 + g + 1)
  else none

/-- Global collection of full match strings (JavaScript `match` with `g`). -/
def collectGo (m : Str → Option Nat) : Nat → Str → List Str
  | _, [] => []
  | 0, _ => []
  | n + 1, c :: s =>
    match m (c :: s) with
    | some k => (c :: s).take k :: collectGo m n (List.drop (k - 1) s)
    | none => collectGo m n s

/-- All `<itemref[^>]*idref="([^"]+)"` full matches, in document order. -/
def itemrefFulls (opf : Str) : List Str := collectGo itemrefAt opf.length opf

/-- All `<item[^>]*>` full matches, in document order (this also catches
`<itemref …>` tags — the source's pattern does not exclude them). -/
def itemTags (opf : Str) : List Str := collectGo itemTagAt opf.length opf

/-- The spine reading order: for each full `itemref` match, re-extract the
first `idref="([^"]+)"`, then drop empties (`filter(Boolean)`). -/
def spineIds (opf : Str) : List Str :=
  ((itemrefFulls opf).map
      (fun m => (firstAttrVal (str "idref=\"") m).getD [])).filter
    (fun l => !l.isEmpty)

/-- Per-idref chapter loading: find the first manifest tag whose text
contains `id="<id>"`, take its first `href`, read the entry, transduce;
drop the chapter when anything is missing or the text trims to nothing. -/
def chapterFor (items : List Str) (z : Zip) (opfDir : Str) (id : Str) :
    Option Chapter :=
  match items.find? (fun i => occursB (str "id=\"" ++ id ++ str "\"") i) with
  | none => none
  | some item =>
    match firstAttrVal (str "href=\"") item with
    | none => none
    | some href =>
      match zfile z (opfDir ++ href) with
      | none => none
      | some html =>
        let ttl := extractTitle html
        let text := extractTextFromHtml html (some ttl)
        if (trimWS text).isEmpty then none else some ⟨ttl, text⟩

/-- The chapter-accumulation loop over the spine ids. -/
def chaptersLoop (items : List Str) (z : Zip) (opfDir : Str) :
    List Str → List Chapter
  | [] => []
  | id :: rest =>
    match chapterFor items z opfDir id with
    | some ch => ch :: chaptersLoop items z opfDir rest
    | none => chaptersLoop items z opfDir rest

/-- Chapters `extractChapters` (source lines 196-248). -/
def extractChapters (opf : Str) (z : Zip) (opfDir : Str) : List Chapter :=
  chaptersLoop (itemTags opf) z opfDir (spineIds opf)

/-!  ### The load pipeline (`loadEpub`, source lines 63-108) -/

/-- Directory part `opfPath.substring(0, opfPath.lastIndexOf('/') + 1)`. -/
def lastSlashIdx : Str → Option Nat
  | [] => none
  | c :: s =>
    match lastSlashIdx s with
    | some i => some (i + 1)
    | none => if c == '/' then some 0 else none

def dirOf (p : Str) : Str :=
  match lastSlashIdx p with
  | some i => p.take (i + 1)
  | none => []

/-- The EPUB load: fatal failures are the missing container descriptor, an
unfindable `full-path` attribute, the missing package document, and a throw
escaping `extractMetadata` (the unescaped cover-id `new RegExp`); the
chapter loop is total — a missing or unreadable chapter never aborts. -/
def loadEpub (z : Zip) : Except Str LoadResult :=
  match zfile z (str "META-INF/container.xml") with
  | none => .error (str "Invalid EPUB: Missing container.xml")
  | some containerXml =>
    match firstAttrVal (str "full-path=\"") containerXml with
    | none => .error (str "Invalid EPUB: Cannot find OPF path")
    | some opfPath =>
      let opfDir := dirOf opfPath
      match zfile z opfPath with
      | none => .error (str "Invalid EPUB: Missing OPF file")
      | some opfContent =>
        match extractMetadata opfContent z opfDir with
        | Except.error e => Except.error e
        | Except.ok md =>
          .ok ⟨md, extractChapters opfContent z opfDir⟩

/-!  ## Concrete archives used by the claims -/

/-- The container descriptor of the end-to-end scenario. -/
def containerC3 : Str :=
  str "<?xml version=\"1.0\"?><container><rootfiles><rootfile full-path=\"OEBPS/content.opf\"/></rootfiles></container>"

/-- The package document of the end-to-end scenario: a `cover.jpg` manifest
item marked `properties="cover-image"` and a spine of `[ch1, ch2]`. -/
def opfC3 : Str :=
  str "<package><metadata><dc:title>Of Mice and Men</dc:title><dc:creator>John Steinbeck</dc:creator></metadata><manifest><item id=\"cov\" properties=\"cover-image\" href=\"cover.jpg\"/><item id=\"ch1\" href=\"ch1.xhtml\"/><item id=\"ch2\" href=\"ch2.xhtml\"/></manifest><spine><itemref idref=\"ch1\"/><itemref idref=\"ch2\"/></spine></package>"

/-- The first chapter of the end-to-end scenario. -/
def ch1C3 : Str :=
  str "<h1>Intro</h1><p>Hello <b>world</b>.</p><ul><li>A</li><li>B</li></ul>"

/-- The archive of the end-to-end scenario. -/
def zipC3 : Zip :=
  [ (str "META-INF/container.xml", containerC3),
    (str "OEBPS/content.opf", opfC3),
    (str "OEBPS/cover.jpg", str "IMGDATA"),
    (str "OEBPS/ch1.xhtml", ch1C3),
    (str "OEBPS/ch2.xhtml", str "<p>Second.</p>") ]

/-- A package document whose `name="cover"` meta names an id that no
manifest item carries, while a readable `properties="cover-image"` item
exists. -/
def opfGhost : Str :=
  str "<package><meta name=\"cover\" content=\"ghost\"/><manifest><item properties=\"cover-image\" href=\"c.png\" id=\"c\"/></manifest></package>"

/-- The archive for `opfGhost`: the properties-marked cover entry is present
and readable. -/
def zipGhost : Zip := [(str "OEBPS/c.png", str "IMG")]

/-- A package document whose meta cover id is the single character `(`:
interpolated unescaped into `new RegExp` it unbalances the groups of the
dynamically built pattern, so the construction throws a `SyntaxError`. -/
def opfParen : Str :=
  str "<package><meta name=\"cover\" content=\"(\"/></package>"

/-- A minimal container descriptor naming `content.opf` at the root. -/
def containerMin : Str :=
  str "<container><rootfiles><rootfile full-path=\"content.opf\"/></rootfiles></container>"

/-- An archive whose structural prerequisites are all present but whose
package document is `opfParen`: the cover-id interpolation throws. -/
def zipParen : Zip :=
  [ (str "META-INF/container.xml", containerMin),
    (str "content.opf", opfParen) ]

/-!  ## Claim theorems -/

/-- **C3.** End-to-end scenario: for the archive whose `container.xml` points
to `OEBPS/content.opf`, whose manifest marks `cover.jpg` with
`properties="cover-image"`, whose spine is `[ch1, ch2]` and whose
`ch1.xhtml` is `<h1>Intro</h1><p>Hello <b>world</b>.</p><ul><li>A</li><li>B</li></ul>`,
the load yields `chapters[0] = {title: "Intro", content: "Hello world.\n\n• A\n• B"}`
and a present cover image with MIME type `image/jpeg`. -/
theorem C3_end_to_end :
    loadEpub zipC3 =
      Except.ok
        { metadata :=
            { title := str "Of Mice and Men",
              author := str "John Steinbeck",
              coverImage := some (str "data:image/jpeg;base64,IMGDATA") },
          chapters :=
            [ { title := str "Intro", content := str "Hello world.\n\n• A\n• B" },
              { title := str "Chapter", content := str "Second." } ] } := by
  rfl

/-- **C4, amended.** Element-local attribute-order invariance: on a package
document consisting of the quoted element alone, the meta element written
`<meta name="cover" content="x"/>` and the one written
`<meta content="x" name="cover"/>` yield the identical cover-id resolution
(namely `x`), and the manifest item `<item id="i" href="h"/>` resolves to the
same href as `<item href="h" id="i"/>` (namely `h`).  Document-wide the
invariance fails: each attribute order is matched by its own pattern and the
two patterns are tried in sequence over the whole document, so with several
candidate elements the spelling decides which element wins (see the
counterexample). -/
theorem C4_attribute_order_invariance :
    metaCoverId (str "<meta name=\"cover\" content=\"x\"/>") =
        metaCoverId (str "<meta content=\"x\" name=\"cover\"/>") ∧
      metaCoverId (str "<meta name=\"cover\" content=\"x\"/>") = some (str "x") ∧
      coverItemHref (str "<item id=\"i\" href=\"h\"/>") (str "i") =
        coverItemHref (str "<item href=\"h\" id=\"i\"/>") (str "i") ∧
      coverItemHref (str "<item id=\"i\" href=\"h\"/>") (str "i") = some (str "h") := by
  exact ⟨rfl, rfl, rfl, rfl⟩

/-- **C4, counterexample.** A document with two cover meta elements: written
`<meta content="x" name="cover"/><meta name="cover" content="y"/>` it
resolves to `y` (the name-first pattern is tried first over the whole
document and matches the second element), but rewriting only the first
element in the other attribute order — `<meta name="cover" content="x"/>` —
makes the resolution `x`: reordering attributes within one element changed
the result, refuting the universal invariance. -/
theorem C4_counterexample :
    metaCoverId
        (str "<meta content=\"x\" name=\"cover\"/><meta name=\"cover\" content=\"y\"/>") =
      some (str "y") ∧
      metaCoverId
          (str "<meta name=\"cover\" content=\"x\"/><meta name=\"cover\" content=\"y\"/>") =
        some (str "x") ∧
      (some (str "y") : Option Str) ≠ some (str "x") := by
  exact ⟨rfl, rfl, by decide⟩

/-- **C2, counterexample.** Strategy 1 yields the id `ghost`, which no
manifest item resolves, while the `properties="cover-image"` item exists and
is readable (strategy 2 alone would produce a cover) — yet the resolver
produces no cover, contradicting the claimed fall-through from a failed
strategy 1 to strategy 2. -/
theorem C2_counterexample :
    extractCoverImage opfGhost zipGhost (str "OEBPS/") = Except.ok none ∧
      metaCoverId opfGhost = some (str "ghost") ∧
      (match epub3CoverA opfGhost with
       | some href => readCover zipGhost (str "OEBPS/") href
       | none => none) = some (str "data:image/png;base64,IMG") := by
  exact ⟨rfl, rfl, rfl⟩

/-- **C2, amended.** The resolver's actual strategy order: a meta
`name="cover"` id is extracted first; when an id was found, only the direct
manifest lookup of that id is attempted — it never falls through to the
properties strategy, its failure yields an absent cover for an id free of
regex metacharacters, and for an id containing one the unescaped `new
RegExp` construction throws, aborting the extraction with an error; the
`properties="cover-image"` strategy runs only when no meta id was found.
The closing conjunct exhibits the thrown-error path on the id `(`. -/
theorem C2_cover_strategy_order (opf : Str) (z : Zip) (opfDir : Str) :
    (extractCoverImage opf z opfDir =
      match metaCoverId opf with
      | some cid =>
        if regexSafe cid then
          Except.ok
            (match coverItemHref opf cid with
             | some href => readCover z opfDir href
             | none => none)
        else Except.error (str "Invalid regular expression")
      | none =>
        Except.ok
          (match epub3CoverA opf with
           | some href => readCover z opfDir href
           | none =>
             match epub3CoverB opf with
             | some href => readCover z opfDir href
             | none => none)) ∧
      extractCoverImage opfParen [] [] =
        Except.error (str "Invalid regular expression") := by
  refine ⟨?_, rfl⟩
  cases h : metaCoverId opf <;> simp [extractCoverImage, h]

/-- **C8, counterexample.** On the chapter markup `&amp;nbsp;` the
transducer's output is the literal `&nbsp;` — a named entity of the
supported set that remains undecoded in the final output, because the
`nbsp` replacement runs before the `amp` replacement that materialises it. -/
theorem C8_counterexample :
    extractTextFromHtml (str "&amp;nbsp;") none = str "&nbsp;" ∧
      Occurs (str "&nbsp;") (extractTextFromHtml (str "&amp;nbsp;") none) := by
  exact ⟨rfl, [], [], by rfl⟩

/-- **C8, amended.** Entity decoding is a fixed sequence of literal
replacements in the order `nbsp, amp, lt, gt, quot, #39, apos, mdash, ndash,
hellip, rsquo, lsquo, rdquo, ldquo`; each entity of the set is decoded to its
literal character when the decoder reaches it, and unrecognized entities are
left as-is — but an occurrence of a supported entity materialised by the
`amp` replacement after its own replacement has already run (e.g. `&nbsp;`
from `&amp;nbsp;`) remains undecoded. -/
theorem C8_entity_decoding_sequential :
    (entityPairs.all (fun pr => decodeEntities pr.1 == pr.2)) = true ∧
      decodeEntities (str "&copy;") = str "&copy;" ∧
      decodeEntities (str "&amp;nbsp;") = str "&nbsp;" := by
  exact ⟨rfl, rfl, rfl⟩

/-- **C1, counterexample.** The transducer is not idempotent on its own
output: `a<br/>b` transduces to the two-line content `a\nb`, but re-running
the transducer on that content collapses the newline to a space, yielding
`a b`. -/
theorem C1_counterexample :
    extractTextFromHtml (str "a<br/>b") none = str "a\nb" ∧
      extractTextFromHtml (str "a\nb") none = str "a b" ∧
      str "a b" ≠ str "a\nb" := by
  exact ⟨rfl, rfl, by decide⟩

/-!  ## Lemmas about the literal global replace

These support the order-dependence analysis of entity decoding: a literal
replace preserves substrings the pattern cannot overlap, and rewrites
occurrences of `pattern ++ u` into `replacement ++ u`. -/

theorem occurs_nil {t : Str} (h : Occurs t []) : t = [] := by
  obtain ⟨a, b, hab⟩ := h
  have h1 := List.append_eq_nil.mp hab.symm
  exact (List.append_eq_nil.mp h1.1).2

theorem occurs_cons {t : Str} {c : Char} {s : Str} (h : Occurs t s) :
    Occurs t (c :: s) := by
  obtain ⟨a, b, rfl⟩ := h
  exact ⟨c :: a, b, rfl⟩

theorem occurs_append_left {t x s : Str} (h : Occurs t s) :
    Occurs t (x ++ s) := by
  obtain ⟨a, b, rfl⟩ := h
  exact ⟨x ++ a, b, by simp⟩

theorem isEmpty_false {p : Str} (h : p ≠ []) : p.isEmpty = false := by
  cases p with
  | nil => exact absurd rfl h
  | cons a l => rfl

theorem tryLit_some {p r s : Str} {rk : Str × Nat}
    (h : tryLit p r s = some rk) :
    rk = (r, p.length) ∧ pmatch p s = true ∧ p ≠ [] := by
  unfold tryLit at h
  by_cases hc : (!p.isEmpty && pmatch p s) = true
  · rw [if_pos hc] at h
    simp only [Bool.and_eq_true, Bool.not_eq_true'] at hc
    refine ⟨(Option.some.inj h).symm, hc.2, ?_⟩
    intro hp
    subst hp
    exact absurd hc.1 (by simp [List.isEmpty])
  · rw [if_neg hc] at h
    cases h

theorem tryLit_mk {p r s : Str} (hpne : p ≠ []) (hpm : pmatch p s = true) :
    tryLit p r s = some (r, p.length) := by
  unfold tryLit
  rw [if_pos]
  simp [isEmpty_false hpne, hpm]

theorem tryLit_none {p r s : Str} (hpm : pmatch p s = false) :
    tryLit p r s = none := by
  unfold tryLit
  rw [if_neg]
  simp [hpm]

theorem scanGo_succ_none {T : Str → Option (Str × Nat)} {c : Char}
    {s : Str} {n : Nat} (h : T (c :: s) = none) :
    scanGo T (n + 1) (c :: s) = c :: scanGo T n s := by
  simp [scanGo, h]

theorem scanGo_succ_some {T : Str → Option (Str × Nat)} {c : Char}
    {s : Str} {n : Nat} {r : Str} {k : Nat} (h : T (c :: s) = some (r, k)) :
    scanGo T (n + 1) (c :: s) = r ++ scanGo T n (List.drop (k - 1) s) := by
  simp [scanGo, h]

theorem drop_pred_cons {k : Nat} (hk : 0 < k) (c : Char) (s : Str) :
    List.drop (k - 1) s = List.drop k (c :: s) := by
  cases k with
  | zero => exact absurd hk (by simp)
  | succ k => simp

theorem scanGo_fuel (T : Str → Option (Str × Nat)) :
    ∀ n m s, s.length ≤ n → s.length ≤ m → scanGo T n s = scanGo T m s := by
  intro n
  induction n with
  | zero =>
    intro m s hn _
    have : s = [] := List.eq_nil_of_length_eq_zero (Nat.le_zero.mp hn)
    subst this; cases m <;> rfl
  | succ n ih =>
    intro m s hn hm
    cases s with
    | nil => cases m <;> rfl
    | cons c s =>
      cases m with
      | zero => exact absurd hm (by simp)
      | succ m =>
        cases hT : T (c :: s) with
        | none =>
          rw [scanGo_succ_none hT, scanGo_succ_none hT,
            ih m s (by simpa using hn) (by simpa using hm)]
        | some rk =>
          obtain ⟨r, k⟩ := rk
          have hd : (List.drop (k - 1) s).length ≤ s.length := by
            simp [List.length_drop]
          have h1 : s.length ≤ n := by simpa using hn
          have h2 : s.length ≤ m := by simpa using hm
          rw [scanGo_succ_some hT, scanGo_succ_some hT,
            ih m _ (le_trans hd h1) (le_trans hd h2)]

theorem pmatch_iff {p s : Str} : pmatch p s = true ↔ ∃ t, s = p ++ t := by
  induction p generalizing s with
  | nil =>
    simp only [pmatch, List.nil_append]
    exact ⟨fun _ => ⟨s, rfl⟩, fun _ => trivial⟩
  | cons a p ih =>
    cases s with
    | nil =>
      simp only [pmatch, List.cons_append]
      constructor
      · intro h; cases h
      · rintro ⟨t, h⟩; cases h
    | cons c s =>
      simp only [pmatch, Bool.and_eq_true, beq_iff_eq, ih, List.cons_append]
      constructor
      · rintro ⟨rfl, t, rfl⟩; exact ⟨t, rfl⟩
      · rintro ⟨t, h⟩
        injection h with h1 h2
        exact ⟨h1.symm, t, h2⟩

/-- Mutual-prefix compatibility of two literals. -/
def compatB (p q : Str) : Bool := pmatch p q || pmatch q p

/-- The pattern can never overlap an occurrence of `t`: it is incompatible
with `t` aligned at the start, at every interior offset of `t`, and from
every interior offset of itself into `t`. -/
def noOv (p t : Str) : Bool :=
  !(compatB p t) &&
    (List.range t.length).all (fun k => k == 0 || !(compatB p (t.drop k))) &&
    (List.range p.length).all (fun k => k == 0 || !(compatB (p.drop k) t))

/-- No non-trivial suffix of the pattern is one of its prefixes
(matches of the pattern can therefore never overlap each other). -/
def selfFree (p : Str) : Bool :=
  (List.range p.length).all (fun k => k == 0 || !(pmatch (p.drop k) p))

/-- The pattern cannot match at any offset of `u` (so scanning copies `u`
verbatim as long as it stands at the front). -/
def noEnter (p u : Str) : Bool :=
  (List.range u.length).all (fun k => !(compatB p (u.drop k)))

theorem noOv_facts {p t : Str} (h : noOv p t = true) :
    compatB p t = false ∧
      (∀ k, 0 < k → k < t.length → compatB p (t.drop k) = false) ∧
      (∀ k, 0 < k → k < p.length → compatB (p.drop k) t = false) := by
  simp only [noOv, Bool.and_eq_true, List.all_eq_true, List.mem_range,
    Bool.or_eq_true, beq_iff_eq, Bool.not_eq_true'] at h
  refine ⟨h.1.1, fun k hk0 hk => ?_, fun k hk0 hk => ?_⟩
  · rcases h.1.2 k hk with h' | h'
    · omega
    · exact h'
  · rcases h.2 k hk with h' | h'
    · omega
    · exact h'

theorem selfFree_facts {p : Str} (h : selfFree p = true) :
    ∀ k, 0 < k → k < p.length → pmatch (p.drop k) p = false := by
  simp only [selfFree, List.all_eq_true, List.mem_range, Bool.or_eq_true,
    beq_iff_eq, Bool.not_eq_true'] at h
  intro k hk0 hk
  rcases h k hk with h' | h'
  · omega
  · exact h'

theorem noEnter_facts {p u : Str} (h : noEnter p u = true) :
    ∀ k, k < u.length → compatB p (u.drop k) = false := by
  simp only [noEnter, List.all_eq_true, List.mem_range, Bool.not_eq_true'] at h
  exact h

theorem compat_of_pmatch_append {p u b : Str} (_hu : u ≠ [])
    (h : pmatch p (u ++ b) = true) : compatB p u = true := by
  obtain ⟨t, ht⟩ := pmatch_iff.mp h
  rcases List.append_eq_append_iff.mp ht with ⟨e, he1, _⟩ | ⟨e, he1, _⟩
  · -- p = u ++ e : u is a prefix of p
    have hx : pmatch u p = true := pmatch_iff.mpr ⟨e, he1⟩
    simp [compatB, hx]
  · -- u = p ++ e : p is a prefix of u
    have hx : pmatch p u = true := pmatch_iff.mpr ⟨e, he1⟩
    simp [compatB, hx]

/-- Where an occurrence of `w` at a positive offset can sit relative to a
match of `p` at the front: either wholly after the match, or overlapping it
(in which case a suffix of `p` and `w` are prefix-compatible). -/
theorem occ_vs_match {p w : Str} {a b tail : Str} (ha : a ≠ [])
    (h : a ++ (w ++ b) = p ++ tail) :
    (∃ e b', tail = e ++ (w ++ b')) ∨
      (∃ k g, 0 < k ∧ k < p.length ∧
        (p.drop k = w ++ g ∨ w = p.drop k ++ g)) := by
  rcases List.append_eq_append_iff.mp h with ⟨e, hp, hw⟩ | ⟨e, ha2, ht⟩
  · -- p = a ++ e and w ++ b = e ++ tail
    cases e with
    | nil =>
      refine Or.inl ⟨[], b, ?_⟩
      simpa using hw.symm
    | cons f e' =>
      have hk0 : 0 < a.length := by
        cases a with
        | nil => exact absurd rfl ha
        | cons _ _ => simp
      have hklt : a.length < p.length := by rw [hp]; simp
      have hpd : p.drop a.length = f :: e' := by
        rw [hp]; exact List.drop_left a (f :: e')
      rcases List.append_eq_append_iff.mp hw with ⟨g, hg1, _⟩ | ⟨g, hg1, _⟩
      · exact Or.inr ⟨a.length, g, hk0, hklt, Or.inl (by rw [hpd, hg1])⟩
      · exact Or.inr ⟨a.length, g, hk0, hklt, Or.inr (by rw [hpd]; exact hg1)⟩
  · -- a = p ++ e : the occurrence lies wholly inside `tail`
    exact Or.inl ⟨e, b, ht⟩

/-- Scanning `u ++ b` copies `u` verbatim when the pattern cannot match at
any offset of `u`. -/
theorem scan_copy {p r : Str} (u b : Str) {n : Nat}
    (hn : (u ++ b).length ≤ n)
    (hu : ∀ k, k < u.length → compatB p (u.drop k) = false) :
    scanGo (tryLit p r) n (u ++ b) = u ++ scanRun (tryLit p r) b := by
  induction u generalizing n with
  | nil =>
    simpa using scanGo_fuel (tryLit p r) n b.length b (by simpa using hn) le_rfl
  | cons c u ih =>
    cases n with
    | zero => exact absurd hn (by simp)
    | succ n =>
      have hpm : pmatch p (c :: (u ++ b)) = false := by
        cases hx : pmatch p (c :: (u ++ b)) with
        | false => rfl
        | true =>
          have hcomp := compat_of_pmatch_append (u := c :: u) (by simp)
            (by simpa using hx)
          have h0 := hu 0 (by simp)
          rw [List.drop_zero] at h0
          rw [hcomp] at h0
          cases h0
      have hnone : tryLit p r (c :: (u ++ b)) = none := tryLit_none hpm
      have : (c :: u) ++ b = c :: (u ++ b) := by simp
      rw [this, scanGo_succ_none hnone,
        ih (by simpa using Nat.le_of_succ_le_succ (by simpa using hn))
          (fun k hk => by simpa using hu (k + 1) (by simpa using hk))]
      simp

/-- A global literal replace preserves every occurrence of a substring the
pattern cannot overlap. -/
theorem scan_preserve {p r t : Str} (hno : noOv p t = true) :
    ∀ n s, s.length ≤ n → Occurs t s → Occurs t (scanGo (tryLit p r) n s) := by
  obtain ⟨h1, h2, h3⟩ := noOv_facts hno
  have htne : t ≠ [] := by
    intro ht
    subst ht
    simp [compatB, pmatch] at h1
  intro n
  induction n with
  | zero =>
    intro s hn h
    have hs : s = [] := List.eq_nil_of_length_eq_zero (Nat.le_zero.mp hn)
    subst hs
    exact absurd (occurs_nil h) htne
  | succ n ih =>
    intro s hn h
    cases s with
    | nil => exact absurd (occurs_nil h) htne
    | cons c s =>
      obtain ⟨a, b, hab⟩ := h
      cases a with
      | nil =>
        simp only [List.nil_append] at hab
        rw [hab]
        rw [scan_copy t b (by rw [← hab]; simpa using hn)
          (fun k hk => by
            rcases Nat.eq_zero_or_pos k with rfl | hk0
            · simpa using h1
            · exact h2 k hk0 hk)]
        exact ⟨[], scanRun (tryLit p r) b, rfl⟩
      | cons d a =>
        cases hT : tryLit p r (c :: s) with
        | none =>
          rw [scanGo_succ_none hT]
          have hs' : s = a ++ t ++ b := by
            have : c :: s = d :: (a ++ t ++ b) := by simpa using hab
            exact (List.cons.inj this).2
          exact occurs_cons (ih s (by simpa using hn) ⟨a, b, hs'⟩)
        | some rk =>
          obtain ⟨hrk, hpm, hpne⟩ := tryLit_some hT
          subst hrk
          rw [scanGo_succ_some hT]
          obtain ⟨tail, htail⟩ := pmatch_iff.mp hpm
          have hplen : 0 < p.length := by
            cases p with
            | nil => exact absurd rfl hpne
            | cons _ _ => simp
          rw [drop_pred_cons hplen c s]
          have hdropt : (c :: s).drop p.length = tail := by
            rw [htail]; exact List.drop_left p tail
          have hsplit : (d :: a) ++ (t ++ b) = p ++ tail := by
            rw [← List.append_assoc]
            exact hab.symm.trans htail
          rcases occ_vs_match (by simp) hsplit with
            ⟨e, b', hgood⟩ | ⟨k, g, hk0, hklt, hbad⟩
          · have hocc2 : Occurs t ((c :: s).drop p.length) := by
              rw [hdropt, hgood]
              exact ⟨e, b', by simp⟩
            refine occurs_append_left (ih _ ?_ hocc2)
            have hl : ((c :: s).drop p.length).length ≤ s.length := by
              simp only [List.length_drop, List.length_cons]
              omega
            have : s.length ≤ n := by simpa using hn
            omega
          · exfalso
            rcases hbad with hbad | hbad
            · have hx : pmatch t (p.drop k) = true := pmatch_iff.mpr ⟨g, hbad⟩
              have hc := h3 k hk0 hklt
              simp only [compatB, Bool.or_eq_false_iff] at hc
              rw [hx] at hc
              cases hc.2
            · have hx : pmatch (p.drop k) t = true := pmatch_iff.mpr ⟨g, hbad⟩
              have hc := h3 k hk0 hklt
              simp only [compatB, Bool.or_eq_false_iff] at hc
              rw [hx] at hc
              cases hc.1

/-- A global literal replace rewrites an occurrence of `pattern ++ u` into
`replacement ++ u` when the pattern never overlaps itself and cannot match
at any offset of `u`. -/
theorem scan_rewrite {p r u : Str} (hpne : p ≠ [])
    (hb : selfFree p = true) (hu : noEnter p u = true) :
    ∀ n s, s.length ≤ n → Occurs (p ++ u) s →
      Occurs (r ++ u) (scanGo (tryLit p r) n s) := by
  have hb' := selfFree_facts hb
  have hu' := noEnter_facts hu
  have hpu : (p ++ u) ≠ [] := by
    intro h
    exact hpne (List.append_eq_nil.mp h).1
  have hplen : 0 < p.length := by
    cases p with
    | nil => exact absurd rfl hpne
    | cons _ _ => simp
  intro n
  induction n with
  | zero =>
    intro s hn h
    have hs : s = [] := List.eq_nil_of_length_eq_zero (Nat.le_zero.mp hn)
    subst hs
    exact absurd (occurs_nil h) hpu
  | succ n ih =>
    intro s hn h
    cases s with
    | nil => exact absurd (occurs_nil h) hpu
    | cons c s =>
      obtain ⟨a, b, hab⟩ := h
      cases a with
      | nil =>
        -- the occurrence stands at the front: the scanner matches it
        simp only [List.nil_append] at hab
        have hpm : pmatch p (c :: s) = true := by
          refine pmatch_iff.mpr ⟨u ++ b, ?_⟩
          rw [hab]; simp
        have hT : tryLit p r (c :: s) = some (r, p.length) := tryLit_mk hpne hpm
        rw [scanGo_succ_some hT, drop_pred_cons hplen c s]
        have hdrop2 : (c :: s).drop p.length = u ++ b := by
          rw [hab, List.append_assoc]
          exact List.drop_left p (u ++ b)
        rw [hdrop2, scan_copy u b ?hn2 (fun k hk => hu' k hk)]
        · exact ⟨[], scanRun (tryLit p r) b, by simp⟩
        case hn2 =>
          have hlen : (c :: s).length = p.length + (u.length + b.length) := by
            rw [hab]; simp
          simp only [List.length_cons] at hlen
          simp only [List.length_append]
          simp only [List.length_cons] at hn
          omega
      | cons d a =>
        cases hT : tryLit p r (c :: s) with
        | none =>
          rw [scanGo_succ_none hT]
          have hs' : s = a ++ (p ++ u) ++ b := by
            have : c :: s = d :: (a ++ (p ++ u) ++ b) := by simpa using hab
            exact (List.cons.inj this).2
          exact occurs_cons (ih s (by simpa using hn) ⟨a, b, hs'⟩)
        | some rk =>
          obtain ⟨hrk, hpm, _⟩ := tryLit_some hT
          subst hrk
          rw [scanGo_succ_some hT]
          obtain ⟨tail, htail⟩ := pmatch_iff.mp hpm
          rw [drop_pred_cons hplen c s]
          have hdropt : (c :: s).drop p.length = tail := by
            rw [htail]; exact List.drop_left p tail
          have hsplit : (d :: a) ++ ((p ++ u) ++ b) = p ++ tail := by
            rw [← List.append_assoc]
            exact hab.symm.trans htail
          rcases occ_vs_match (by simp) hsplit with
            ⟨e, b', hgood⟩ | ⟨k, g, hk0, hklt, hbad⟩
          · have hocc2 : Occurs (p ++ u) ((c :: s).drop p.length) := by
              rw [hdropt, hgood]
              exact ⟨e, b', by simp⟩
            refine occurs_append_left (ih _ ?_ hocc2)
            have hl : ((c :: s).drop p.length).length ≤ s.length := by
              simp only [List.length_drop, List.length_cons]
              omega
            have : s.length ≤ n := by simpa using hn
            omega
          · exfalso
            rcases hbad with hbad | hbad
            · -- p.drop k = (p ++ u) ++ g : impossible by length
              have hlen := congrArg List.length hbad
              simp only [List.length_drop, List.length_append] at hlen
              omega
            · -- p ++ u = p.drop k ++ g
              rcases List.append_eq_append_iff.mp hbad with
                ⟨x, hx1, _⟩ | ⟨x, hx1, _⟩
              · -- p.drop k = p ++ x : impossible by length
                have hlen := congrArg List.length hx1
                simp only [List.length_drop, List.length_append] at hlen
                omega
              · -- p = p.drop k ++ x : p.drop k is a prefix of p
                have hx : pmatch (p.drop k) p = true := pmatch_iff.mpr ⟨x, hx1⟩
                rw [hb' k hk0 hklt] at hx
                cases hx

/-- Lemma `scan_preserve` for the wrapped `replaceAll`. -/
theorem replaceAll_preserve {p r t s : Str} (hno : noOv p t = true)
    (h : Occurs t s) : Occurs t (replaceAll p r s) :=
  scan_preserve hno s.length s le_rfl h

/-- Lemma `scan_rewrite` for the wrapped `replaceAll`. -/
theorem replaceAll_rewrite {p r u s : Str} (hpne : p ≠ [])
    (hb : selfFree p = true) (hu : noEnter p u = true)
    (h : Occurs (p ++ u) s) : Occurs (r ++ u) (replaceAll p r s) :=
  scan_rewrite hpne hb hu s.length s le_rfl h

/-- The fourteen passes of the decoder, written out in application order. -/
theorem decodeEntities_eq (x : Str) :
    decodeEntities x =
      replaceAll (str "&ldquo;") (str "\"")
        (replaceAll (str "&rdquo;") (str "\"")
          (replaceAll (str "&lsquo;") (str "'")
            (replaceAll (str "&rsquo;") (str "'")
              (replaceAll (str "&hellip;") (str "…")
                (replaceAll (str "&ndash;") (str "–")
                  (replaceAll (str "&mdash;") (str "—")
                    (replaceAll (str "&apos;") (str "'")
                      (replaceAll (str "&#39;") (str "'")
                        (replaceAll (str "&quot;") (str "\"")
                          (replaceAll (str "&gt;") (str ">")
                            (replaceAll (str "&lt;") (str "<")
                              (replaceAll (str "&amp;") (str "&")
                                (replaceAll (str "&nbsp;") (str " ")
                                  x))))))))))))) := by
  simp only [decodeEntities, entityPairs, List.foldl_cons, List.foldl_nil]

set_option maxHeartbeats 1000000 in
/-- **C10.** Entity decoding is order-dependent, not a simultaneous
substitution: because the `amp` replacement runs before the replacements
listed after it, any chapter text containing the doubly-escaped `&amp;mdash;`
yields an em-dash in the decoder's output (never the literal `&mdash;`,
which the later `mdash` pass decodes), whereas text containing `&amp;nbsp;`
leaves the literal `&nbsp;` in the output, `nbsp` having been replaced
before `amp`. -/
theorem C10_entity_order_dependence (s : Str) :
    (Occurs (str "&amp;mdash;") s → Occurs (str "—") (decodeEntities s)) ∧
      (Occurs (str "&amp;nbsp;") s → Occurs (str "&nbsp;") (decodeEntities s)) := by
  rw [decodeEntities_eq]
  constructor
  · intro h
    have h1 : Occurs (str "&amp;mdash;")
        (replaceAll (str "&nbsp;") (str " ") s) :=
      replaceAll_preserve (by rfl) h
    have h2 : Occurs (str "&" ++ str "mdash;")
        (replaceAll (str "&amp;") (str "&")
          (replaceAll (str "&nbsp;") (str " ") s)) :=
      replaceAll_rewrite (p := str "&amp;") (u := str "mdash;")
        (by decide) (by rfl) (by rfl) h1
    have h3 : Occurs (str "&mdash;") _ :=
      replaceAll_preserve (p := str "&lt;") (r := str "<") (by rfl) h2
    have h4 : Occurs (str "&mdash;") _ :=
      replaceAll_preserve (p := str "&gt;") (r := str ">") (by rfl) h3
    have h5 : Occurs (str "&mdash;") _ :=
      replaceAll_preserve (p := str "&quot;") (r := str "\"") (by rfl) h4
    have h6 : Occurs (str "&mdash;") _ :=
      replaceAll_preserve (p := str "&#39;") (r := str "'") (by rfl) h5
    have h7 : Occurs (str "&mdash;") _ :=
      replaceAll_preserve (p := str "&apos;") (r := str "'") (by rfl) h6
    have h8 := replaceAll_rewrite (p := str "&mdash;") (r := str "—")
      (u := ([] : Str)) (by decide) (by rfl) (by rfl) h7
    have h9 : Occurs (str "—") _ :=
      replaceAll_preserve (p := str "&ndash;") (r := str "–") (by rfl) h8
    have h10 : Occurs (str "—") _ :=
      replaceAll_preserve (p := str "&hellip;") (r := str "…") (by rfl) h9
    have h11 : Occurs (str "—") _ :=
      replaceAll_preserve (p := str "&rsquo;") (r := str "'") (by rfl) h10
    have h12 : Occurs (str "—") _ :=
      replaceAll_preserve (p := str "&lsquo;") (r := str "'") (by rfl) h11
    have h13 : Occurs (str "—") _ :=
      replaceAll_preserve (p := str "&rdquo;") (r := str "\"") (by rfl) h12
    exact replaceAll_preserve (p := str "&ldquo;") (r := str "\"") (by rfl) h13
  · intro h
    have h1 : Occurs (str "&amp;nbsp;")
        (replaceAll (str "&nbsp;") (str " ") s) :=
      replaceAll_preserve (by rfl) h
    have h2 : Occurs (str "&" ++ str "nbsp;")
        (replaceAll (str "&amp;") (str "&")
          (replaceAll (str "&nbsp;") (str " ") s)) :=
      replaceAll_rewrite (p := str "&amp;") (u := str "nbsp;")
        (by decide) (by rfl) (by rfl) h1
    have h3 : Occurs (str "&nbsp;") _ :=
      replaceAll_preserve (p := str "&lt;") (r := str "<") (by rfl) h2
    have h4 : Occurs (str "&nbsp;") _ :=
      replaceAll_preserve (p := str "&gt;") (r := str ">") (by rfl) h3
    have h5 : Occurs (str "&nbsp;") _ :=
      replaceAll_preserve (p := str "&quot;") (r := str "\"") (by rfl) h4
    have h6 : Occurs (str "&nbsp;") _ :=
      replaceAll_preserve (p := str "&#39;") (r := str "'") (by rfl) h5
    have h7 : Occurs (str "&nbsp;") _ :=
      replaceAll_preserve (p := str "&apos;") (r := str "'") (by rfl) h6
    have h8 : Occurs (str "&nbsp;") _ :=
      replaceAll_preserve (p := str "&mdash;") (r := str "—") (by rfl) h7
    have h9 : Occurs (str "&nbsp;") _ :=
      replaceAll_preserve (p := str "&ndash;") (r := str "–") (by rfl) h8
    have h10 : Occurs (str "&nbsp;") _ :=
      replaceAll_preserve (p := str "&hellip;") (r := str "…") (by rfl) h9
    have h11 : Occurs (str "&nbsp;") _ :=
      replaceAll_preserve (p := str "&rsquo;") (r := str "'") (by rfl) h10
    have h12 : Occurs (str "&nbsp;") _ :=
      replaceAll_preserve (p := str "&lsquo;") (r := str "'") (by rfl) h11
    have h13 : Occurs (str "&nbsp;") _ :=
      replaceAll_preserve (p := str "&rdquo;") (r := str "\"") (by rfl) h12
    exact replaceAll_preserve (p := str "&ldquo;") (r := str "\"") (by rfl) h13

/-- **C10, witness.** The order-dependence at concrete inputs:
`x&amp;mdash;y` decodes with an em-dash in the output, and `x&amp;nbsp;y`
leaves the literal `&nbsp;`. -/
theorem C10_witness :
    Occurs (str "—") (decodeEntities (str "x&amp;mdash;y")) ∧
      Occurs (str "&nbsp;") (decodeEntities (str "x&amp;nbsp;y")) :=
  ⟨(C10_entity_order_dependence (str "x&amp;mdash;y")).1 ⟨str "x", str "y", by rfl⟩,
   (C10_entity_order_dependence (str "x&amp;nbsp;y")).2 ⟨str "x", str "y", by rfl⟩⟩

/-!  ## Spine order, error taxonomy, metadata defaults, chapter invariant -/

theorem chaptersLoop_eq_filterMap (items : List Str) (z : Zip) (opfDir : Str) :
    ∀ ids : List Str, chaptersLoop items z opfDir ids =
      ids.filterMap (chapterFor items z opfDir) := by
  intro ids
  induction ids with
  | nil => rfl
  | cons id rest ih =>
    simp only [chaptersLoop, List.filterMap_cons]
    cases chapterFor items z opfDir id <;> simp [ih]

/-- **C5.** The chapter sequence is exactly the spine's idref order filtered
by per-id resolution: each spine idref contributes at most one chapter, in
spine order (the manifest's declaration order plays no part in the ordering),
an idref that resolves to no chapter is dropped without error and without
disturbing the relative order of the survivors, and the list is never longer
than the spine. -/
theorem C5_spine_order (opf : Str) (z : Zip) (opfDir : Str) :
    extractChapters opf z opfDir =
        (spineIds opf).filterMap (chapterFor (itemTags opf) z opfDir) ∧
      (extractChapters opf z opfDir).length ≤ (spineIds opf).length := by
  have h := chaptersLoop_eq_filterMap (itemTags opf) z opfDir (spineIds opf)
  refine ⟨h, ?_⟩
  rw [extractChapters, h]
  exact List.length_filterMap_le _ _

/-- **C6, counterexample.** An archive whose structural prerequisites are
all present — the container descriptor exists, its `full-path` attribute is
found, and the package entry it names exists — yet the load fails: the meta
cover id `(` reaches the unescaped `new RegExp` construction inside the
metadata extraction and the thrown error escapes to the load, contradicting
the claimed "only if a structural prerequisite is missing". -/
theorem C6_counterexample :
    zfile zipParen (str "META-INF/container.xml") = some containerMin ∧
      firstAttrVal (str "full-path=\"") containerMin = some (str "content.opf") ∧
      zfile zipParen (str "content.opf") = some opfParen ∧
      loadEpub zipParen = Except.error (str "Invalid regular expression") := by
  exact ⟨rfl, rfl, rfl, rfl⟩

/-- **C6, amended.** The structural-prerequisite failures are fatal exactly
as claimed — a missing container descriptor, an unfindable `full-path`
attribute, and a missing package entry each abort the load with an error
message and no partial result — and when the three prerequisites are met the
load returns a result provided the cover resolution cannot throw (no meta
cover id, or a meta cover id free of regex metacharacters); chapter-level
failures never abort, the chapter loop being total. -/
theorem C6_fatal_errors (z : Zip) :
    ((zfile z (str "META-INF/container.xml") = none ∨
        (∃ c, zfile z (str "META-INF/container.xml") = some c ∧
          firstAttrVal (str "full-path=\"") c = none) ∨
        (∃ c q, zfile z (str "META-INF/container.xml") = some c ∧
          firstAttrVal (str "full-path=\"") c = some q ∧
          zfile z q = none)) →
      ∃ msg, loadEpub z = Except.error msg) ∧
      (∀ c q opf, zfile z (str "META-INF/container.xml") = some c →
        firstAttrVal (str "full-path=\"") c = some q →
        zfile z q = some opf →
        (metaCoverId opf = none ∨
          ∃ cid, metaCoverId opf = some cid ∧ regexSafe cid = true) →
        ∃ res, loadEpub z = Except.ok res) := by
  constructor
  · rintro (h | ⟨c, hc, hf⟩ | ⟨c, q, hc, hf, ho⟩)
    · exact ⟨str "Invalid EPUB: Missing container.xml", by simp [loadEpub, h]⟩
    · exact ⟨str "Invalid EPUB: Cannot find OPF path", by simp [loadEpub, hc, hf]⟩
    · exact ⟨str "Invalid EPUB: Missing OPF file", by simp [loadEpub, hc, hf, ho]⟩
  · intro c q opf hc hf ho hsafe
    have hcov : ∃ cov, extractCoverImage opf z (dirOf q) = Except.ok cov := by
      rcases hsafe with hnone | ⟨cid, hcid, hrs⟩
      · exact ⟨(match epub3CoverA opf with
            | some href => readCover z (dirOf q) href
            | none =>
              match epub3CoverB opf with
              | some href => readCover z (dirOf q) href
              | none => none),
          by simp [extractCoverImage, hnone]⟩
      · exact ⟨(match coverItemHref opf cid with
            | some href => readCover z (dirOf q) href
            | none => none),
          by simp [extractCoverImage, hcid, hrs]⟩
    obtain ⟨cov, hcov⟩ := hcov
    exact ⟨⟨{ title := titleOf opf, author := authorOf opf, coverImage := cov },
             extractChapters opf z (dirOf q)⟩,
           by simp [loadEpub, hc, hf, ho, extractMetadata, hcov]⟩

/-- A spine-of-one package document free of any cover meta. -/
def opfOk : Str :=
  str "<package><manifest><item id=\"a\" href=\"a.xhtml\"/></manifest><spine><itemref idref=\"a\"/></spine></package>"

/-- A complete archive around `opfOk`, exercising the non-fatal direction of
the load. -/
def zipOk : Zip :=
  [ (str "META-INF/container.xml", containerMin),
    (str "content.opf", opfOk),
    (str "a.xhtml", str "hi") ]

/-- **C6, witness.** Both directions at concrete archives: the empty archive
misses its container descriptor and the load errors; `zipOk` satisfies every
prerequisite with no cover meta at all, and the load returns a result. -/
theorem C6_witness :
    (∃ msg, loadEpub [] = Except.error msg) ∧
      ∃ res, loadEpub zipOk = Except.ok res := by
  refine ⟨(C6_fatal_errors []).1 (Or.inl rfl), ?_⟩
  exact (C6_fatal_errors zipOk).2 containerMin (str "content.opf") opfOk rfl rfl rfl
    (Or.inl rfl)

/-- **C7, counterexample.** A package document whose `dc:title` element is
present but whose text spans two lines: the lazy group of the source pattern
is `(.*?)` with no `s` flag, so it cannot cross a line terminator, and the
extraction yields the placeholder `Unknown Title` although the element is
there with text trimming to `A\nB` — the first-element rule fails on
multi-line text. -/
theorem C7_counterexample :
    Occurs (str "<dc:title>") (str "<dc:title>A\nB</dc:title>") ∧
      extractMetadata (str "<dc:title>A\nB</dc:title>") [] [] =
        Except.ok { title := str "Unknown Title", author := str "Unknown Author",
                    coverImage := none } ∧
      trimWS (str "A\nB") ≠ str "Unknown Title" := by
  refine ⟨⟨[], str "A\nB</dc:title>", rfl⟩, rfl, by decide⟩

/-- **C7, amended.** Whenever the metadata extraction returns (rather than
throwing from the cover resolution), the title is the first **single-line**
`dc:title` element's text trimmed and the author the first single-line
`dc:creator` element's text trimmed, with the literal placeholders
`Unknown Title` / `Unknown Author` when no single-line element matches; the
closed conjuncts exhibit the placeholders on an element-free document and
the first-element rule on documents with two elements each. -/
theorem C7_metadata_single_line (opf : Str) (z : Zip) (opfDir : Str)
    (md : BookMetadata) (h : extractMetadata opf z opfDir = Except.ok md) :
    md.title = titleOf opf ∧ md.author = authorOf opf ∧
      titleOf (str "<package/>") = str "Unknown Title" ∧
      authorOf (str "<package/>") = str "Unknown Author" ∧
      titleOf (str "<dc:title> A </dc:title><dc:title>B</dc:title>") = str "A" ∧
      authorOf (str "<dc:creator>C</dc:creator><dc:creator>D</dc:creator>") =
        str "C" := by
  unfold extractMetadata at h
  cases hcov : extractCoverImage opf z opfDir with
  | error e => rw [hcov] at h; cases h
  | ok cov =>
    rw [hcov] at h
    cases h
    exact ⟨rfl, rfl, rfl, rfl, rfl, rfl⟩

/-- **C7, witness.** The single-line rule applied to a concrete document
holding two `dc:title` elements: the extraction returns, and its title is
the first element's text trimmed. -/
theorem C7_witness :
    ({ title := str "A", author := str "Unknown Author", coverImage := none } :
          BookMetadata).title =
        titleOf (str "<dc:title> A </dc:title><dc:title>B</dc:title>") ∧
      ({ title := str "A", author := str "Unknown Author", coverImage := none } :
            BookMetadata).author =
          authorOf (str "<dc:title> A </dc:title><dc:title>B</dc:title>") ∧
      titleOf (str "<package/>") = str "Unknown Title" ∧
      authorOf (str "<package/>") = str "Unknown Author" ∧
      titleOf (str "<dc:title> A </dc:title><dc:title>B</dc:title>") = str "A" ∧
      authorOf (str "<dc:creator>C</dc:creator><dc:creator>D</dc:creator>") =
        str "C" :=
  C7_metadata_single_line (str "<dc:title> A </dc:title><dc:title>B</dc:title>")
    [] [] { title := str "A", author := str "Unknown Author", coverImage := none }
    rfl

theorem chapterFor_nonblank {items : List Str} {z : Zip} {opfDir : Str}
    {id : Str} {ch : Chapter}
    (h : chapterFor items z opfDir id = some ch) :
    (trimWS ch.content).isEmpty = false := by
  unfold chapterFor at h
  split at h
  · exact Option.noConfusion h
  · split at h
    · exact Option.noConfusion h
    · split at h
      · exact Option.noConfusion h
      · simp only at h
        split at h
        · exact Option.noConfusion h
        · rename_i hemp
          cases h
          simpa using hemp

/-- **C9.** Every chapter in the returned list has content that is non-empty
and not whitespace-only: a chapter whose extracted content trims to nothing
is dropped from the result list entirely. -/
theorem C9_chapters_nonblank (opf : Str) (z : Zip) (opfDir : Str)
    (ch : Chapter) (h : ch ∈ extractChapters opf z opfDir) :
    trimWS ch.content ≠ [] ∧ ch.content ≠ [] := by
  rw [extractChapters, chaptersLoop_eq_filterMap] at h
  obtain ⟨id, _, hch⟩ := List.mem_filterMap.mp h
  have hne := chapterFor_nonblank hch
  have h1 : trimWS ch.content ≠ [] := by
    intro he
    rw [he] at hne
    cases hne
  refine ⟨h1, ?_⟩
  intro he
  rw [he] at h1
  exact h1 rfl

/-- An archive with one non-blank chapter, used to witness the invariant. -/
def opfW : Str :=
  str "<package><manifest><item id=\"a\" href=\"a.xhtml\"/></manifest><spine><itemref idref=\"a\"/></spine></package>"

/-- The archive for `opfW`. -/
def zipW : Zip := [(str "a.xhtml", str "hi")]

/-- **C9, witness.** The invariant applied to a concrete archive whose one
chapter is the text `hi`. -/
theorem C9_witness :
    { title := str "Chapter", content := str "hi" } ∈ extractChapters opfW zipW [] ∧
      trimWS (str "hi") ≠ [] := by
  have hmem : ({ title := str "Chapter", content := str "hi" } : Chapter) ∈
      extractChapters opfW zipW [] := by
    have he : extractChapters opfW zipW [] =
        [{ title := str "Chapter", content := str "hi" }] := by rfl
    rw [he]
    exact List.mem_singleton.mpr rfl
  exact ⟨hmem,
    (C9_chapters_nonblank opfW zipW []
      { title := str "Chapter", content := str "hi" } hmem).1⟩

/-!  ## The transducer on normalized plain text (the amended idempotence)

Every rewrite pass of the transducer is triggered by `<`, `&`, or a
whitespace irregularity; a string that contains neither `<` nor `&`, whose
only whitespace is single interior spaces, and which is trimmed, passes
through the whole pipeline unchanged. -/

/-- No two adjacent whitespace characters. -/
def noAdjWS : Str → Bool
  | [] => true
  | [_] => true
  | a :: b :: r => !(isWS a && isWS b) && noAdjWS (b :: r)

/-- The first character, if any, is not a space. -/
def headNotSp (s : Str) : Bool :=
  match s.head? with
  | some c => !(c == ' ')
  | none => true

/-- Normalized single-line plain text: no `<`, no `&`, whitespace only as
single interior `' '` characters, trimmed at both ends. -/
def plainNormal (t : Str) : Bool :=
  t.all (fun c => !(isWS c) || c == ' ') &&
    noAdjWS t &&
    headNotSp t &&
    headNotSp t.reverse &&
    t.all (fun c => !(c == '<')) &&
    t.all (fun c => !(c == '&'))

theorem plainNormal_facts {t : Str} (h : plainNormal t = true) :
    (∀ c ∈ t, isWS c = true → c = ' ') ∧ noAdjWS t = true ∧
      headNotSp t = true ∧ headNotSp t.reverse = true ∧
      '<' ∉ t ∧ '&' ∉ t := by
  simp only [plainNormal, Bool.and_eq_true, List.all_eq_true,
    Bool.or_eq_true, Bool.not_eq_true', beq_iff_eq] at h
  obtain ⟨⟨⟨⟨⟨h1, h2⟩, h3⟩, h4⟩, h5⟩, h6⟩ := h
  refine ⟨fun c hc hws => ?_, h2, h3, h4, fun hm => ?_, fun hm => ?_⟩
  · rcases h1 c hc with h' | h'
    · rw [hws] at h'; cases h'
    · exact h'
  · exact absurd (h5 '<' hm) (by simp)
  · exact absurd (h6 '&' hm) (by simp)

/-- A scan pass whose matcher never fires on the string is the identity. -/
theorem scanGo_id {T : Str → Option (Str × Nat)} :
    ∀ n (s : Str), (∀ c ∈ s, ∀ s', T (c :: s') = none) → scanGo T n s = s := by
  intro n
  induction n with
  | zero => intro s _; cases s <;> rfl
  | succ n ih =>
    intro s hs
    cases s with
    | nil => rfl
    | cons c s' =>
      rw [scanGo_succ_none (hs c (by simp) s'),
        ih s' (fun d hd s'' => hs d (by simp [hd]) s'')]

theorem scanRun_id {T : Str → Option (Str × Nat)} {s : Str}
    (hs : ∀ c ∈ s, ∀ s', T (c :: s') = none) : scanRun T s = s :=
  scanGo_id s.length s hs

theorem pmatchCI_lt_false {o : Str} {c : Char} {s : Str} (hc : c ≠ '<') :
    pmatchCI ('<' :: o) (c :: s) = false := by
  have hb : (c == '<') = false := by
    simp [hc]
  have h1 : matchesCI '<' c = false := by
    simp [matchesCI, hb, (by decide : ('<'.isLower) = false),
      (by decide : ('<'.isUpper) = false)]
  simp [pmatchCI, h1]

theorem pmatch_amp_false {o : Str} {c : Char} {s : Str} (hc : c ≠ '&') :
    pmatch ('&' :: o) (c :: s) = false := by
  have h1 : ('&' == c) = false := by
    simp only [beq_eq_false_iff_ne, ne_eq]
    exact fun h => hc h.symm
  simp [pmatch, h1]

theorem tagGroupAt_none {o cl : Str} {al : Bool} {s : Str}
    (h : pmatchCI o s = false) : tagGroupAt o cl al s = none := by
  unfold tagGroupAt
  rw [if_neg]
  simp [h]

theorem tryBlock_none {o cl : Str} {c : Char} {s : Str}
    (hpm : pmatchCI o (c :: s) = false) : tryBlock o cl (c :: s) = none := by
  unfold tryBlock
  rw [tagGroupAt_none hpm]
  rfl

theorem tryOpenTag_none {lit rep : Str} {c : Char} {s : Str}
    (hpm : pmatchCI lit (c :: s) = false) : tryOpenTag lit rep (c :: s) = none := by
  unfold tryOpenTag
  rw [if_neg]
  simp [hpm]

theorem tryLitCI_none {lit rep : Str} {c : Char} {s : Str}
    (hpm : pmatchCI lit (c :: s) = false) : tryLitCI lit rep (c :: s) = none := by
  unfold tryLitCI
  rw [if_neg]
  simp [hpm]

theorem tryWrap2_none {litSlash lit rep : Str} {c : Char} {s : Str}
    (h1 : pmatchCI litSlash (c :: s) = false)
    (h2 : pmatchCI lit (c :: s) = false) :
    tryWrap2 litSlash lit rep (c :: s) = none := by
  unfold tryWrap2
  rw [tryOpenTag_none h1, tryOpenTag_none h2]

theorem tryOlLi_none {lit rep : Str} {c : Char} {s : Str}
    (hpm : pmatchCI lit (c :: s) = false) : tryOlLi lit rep (c :: s) = none := by
  unfold tryOlLi
  rw [if_neg]
  simp [hpm]

theorem tryTitlepage_none {c : Char} {s : Str}
    (hpm : pmatchCI (str "<div") (c :: s) = false) :
    tryTitlepage (c :: s) = none := by
  unfold tryTitlepage
  rw [if_neg]
  simp [hpm]

theorem tryAnchor_none {c : Char} {s : Str}
    (hpm : pmatchCI (str "<a") (c :: s) = false) : tryAnchor (c :: s) = none :=
  tagGroupAt_none hpm

theorem tryPP_none {c : Char} {s : Str}
    (hpm : pmatchCI (str "</p>") (c :: s) = false) : tryPP (c :: s) = none := by
  unfold tryPP
  rw [if_neg]
  simp [hpm]

theorem tryBr_none {c : Char} {s : Str}
    (hpm : pmatchCI (str "<br") (c :: s) = false) : tryBr (c :: s) = none := by
  unfold tryBr
  rw [if_neg]
  simp [hpm]

theorem tryStrip_none {c : Char} {s : Str} (hc : c ≠ '<') :
    tryStrip (c :: s) = none := by
  simp [tryStrip, hc]

theorem tryCrlf_none {c : Char} {s : Str} (hr : c ≠ '\r') (hn : c ≠ '\n') :
    tryCrlf (c :: s) = none := by
  simp [tryCrlf, hr, hn]

theorem tryNl3_none {c : Char} {s : Str} (hn : c ≠ '\n') :
    tryNl3 (c :: s) = none := by
  simp [tryNl3, hn]

theorem tryBulletLine_none {c : Char} {s : Str} (hn : c ≠ '\n') :
    tryBulletLine (c :: s) = none := by
  cases s with
  | nil => rfl
  | cons d s' => simp [tryBulletLine, hn]

theorem tryNnn_none {c : Char} {s : Str} (hn : c ≠ '\n') :
    tryNnn (c :: s) = none := by
  simp [tryNnn, hn]

theorem tryLit_amp_none {p r : Str} {c : Char} {s : Str} (hc : c ≠ '&') :
    tryLit ('&' :: p) r (c :: s) = none :=
  tryLit_none (pmatch_amp_false hc)

theorem findTagGroup_none {o cl : Str} {al : Bool} :
    ∀ {t : Str}, (∀ c ∈ t, pmatchCI o (c :: []) = false → True) → '<' ∉ t →
      (∀ c (s' : Str), c ≠ '<' → pmatchCI o (c :: s') = false) →
      findTagGroup o cl al t = none := by
  intro t
  induction t with
  | nil =>
    intro _ _ hguard
    unfold findTagGroup
    simp only [tagGroupAt]
    rw [if_neg]
    · rfl
    · cases o with
      | nil =>
        exact absurd (hguard 'x' [] (by decide)) (by simp [pmatchCI])
      | cons a o' => simp [pmatchCI]
  | cons c t' ih =>
    intro _ hlt hguard
    unfold findTagGroup
    rw [tagGroupAt_none (hguard c t' (fun hq => hlt (hq ▸ List.mem_cons_self c t')))]
    exact ih (fun _ _ _ => trivial) (fun hm => hlt (List.mem_cons_of_mem c hm)) hguard

theorem noAdjWS_tail {a : Char} {r : Str} (h : noAdjWS (a :: r) = true) :
    noAdjWS r = true := by
  cases r with
  | nil => rfl
  | cons b r' =>
    simp only [noAdjWS, Bool.and_eq_true] at h
    exact h.2

theorem noAdjWS_head {a b : Char} {r : Str} (h : noAdjWS (a :: b :: r) = true)
    (ha : isWS a = true) : isWS b = false := by
  simp only [noAdjWS, Bool.and_eq_true, Bool.not_eq_true',
    Bool.and_eq_false_iff] at h
  rcases h.1 with h' | h'
  · rw [ha] at h'; cases h'
  · exact h'

theorem collapse_id {t : Str}
    (hws : ∀ c ∈ t, isWS c = true → c = ' ')
    (hadj : noAdjWS t = true) : collapseWS t = t := by
  suffices h : ∀ n (s : Str), (∀ c ∈ s, isWS c = true → c = ' ') →
      noAdjWS s = true → scanGo trySpaces n s = s from
    h t.length t hws hadj
  intro n
  induction n with
  | zero => intro s _ _; cases s <;> rfl
  | succ n ih =>
    intro s hws hadj
    cases s with
    | nil => rfl
    | cons c s' =>
      by_cases hc : isWS c = true
      · have hcsp : c = ' ' := hws c (by simp) hc
        subst hcsp
        have hrun : wsRun (' ' :: s') = 1 := by
          cases s' with
          | nil => rfl
          | cons d s'' =>
            have hd : isWS d = false := noAdjWS_head hadj (by decide)
            simp [wsRun, List.takeWhile, hd, (by decide : isWS ' ' = true)]
        have hsome : trySpaces (' ' :: s') = some (str " ", 1) := by
          simp only [trySpaces]
          rw [if_pos (by decide : (isWS ' ') = true), hrun]
        rw [scanGo_succ_some hsome]
        have : List.drop (1 - 1) s' = s' := by simp
        rw [this, ih s' (fun d hd hw => hws d (by simp [hd]) hw) (noAdjWS_tail hadj)]
        rfl
      · have hnone : trySpaces (c :: s') = none := by
          simp only [Bool.not_eq_true] at hc
          simp [trySpaces, hc]
        rw [scanGo_succ_none hnone,
          ih s' (fun d hd hw => hws d (by simp [hd]) hw) (noAdjWS_tail hadj)]

theorem head?_mem {c : Char} {s : Str} (h : s.head? = some c) : c ∈ s := by
  cases s with
  | nil => cases h
  | cons a s' =>
    simp only [List.head?] at h
    cases h
    exact List.mem_cons_self _ _

theorem dropWS_id {s : Str} (h : ∀ c, s.head? = some c → isWS c = false) :
    dropWS s = s := by
  cases s with
  | nil => rfl
  | cons c s' =>
    unfold dropWS
    rw [List.dropWhile_cons, if_neg]
    simp [h c rfl]

theorem headNotSp_notWS {s : Str}
    (hws : ∀ c ∈ s, isWS c = true → c = ' ')
    (hh : headNotSp s = true) : ∀ c, s.head? = some c → isWS c = false := by
  intro c hc
  cases hx : isWS c with
  | false => rfl
  | true =>
    have hcsp : c = ' ' := hws c (head?_mem hc) hx
    subst hcsp
    unfold headNotSp at hh
    rw [hc] at hh
    simp at hh

theorem trim_id {t : Str}
    (hws : ∀ c ∈ t, isWS c = true → c = ' ')
    (hh : headNotSp t = true) (hl : headNotSp t.reverse = true) :
    trimWS t = t := by
  have hwsr : ∀ c ∈ t.reverse, isWS c = true → c = ' ' := by
    intro c hc hw
    exact hws c (List.mem_reverse.mp hc) hw
  have h1 : dropWS t.reverse = t.reverse := dropWS_id (headNotSp_notWS hwsr hl)
  unfold trimWS
  rw [h1, List.reverse_reverse]
  exact dropWS_id (headNotSp_notWS hws hh)

theorem splitNl_single {t : Str} (h : '\n' ∉ t) : splitNl t = [t] := by
  induction t with
  | nil => rfl
  | cons c t' ih =>
    have hc : (c == '\n') = false := by
      simp only [beq_eq_false_iff_ne, ne_eq]
      exact fun hq => h (hq ▸ List.mem_cons_self c t')
    simp only [splitNl, hc]
    rw [ih (fun hm => h (List.mem_cons_of_mem c hm))]
    simp

set_option maxHeartbeats 1000000 in
/-- **C1, amended.** Idempotence of the transducer fails in general (see the
counterexample: any newline in the content is collapsed to a space on a
second run, and decodable entity sequences such as `&amp;` are re-decoded);
it holds exactly for normalized single-line text: for every `t` containing
no `<` and no `&`, trimmed, with whitespace only as single interior spaces,
the transducer maps `t` to itself, so re-running it on such content is a
no-op. -/
theorem C1_transduce_id_on_plain (t : Str) (h : plainNormal t = true) :
    extractTextFromHtml t none = t := by
  obtain ⟨hws, hadj, hhead, hlast, hlt, hamp⟩ := plainNormal_facts h
  have hnl : '\n' ∉ t := fun hm =>
    absurd (hws '\n' hm (by decide)) (by decide)
  have hcr : '\r' ∉ t := fun hm =>
    absurd (hws '\r' hm (by decide)) (by decide)
  have hne_lt : ∀ c ∈ t, c ≠ '<' := fun c hc hq => hlt (hq ▸ hc)
  have hne_amp : ∀ c ∈ t, c ≠ '&' := fun c hc hq => hamp (hq ▸ hc)
  have hne_nl : ∀ c ∈ t, c ≠ '\n' := fun c hc hq => hnl (hq ▸ hc)
  have hne_cr : ∀ c ∈ t, c ≠ '\r' := fun c hc hq => hcr (hq ▸ hc)
  have e_body : findTagGroup (str "<body") (str "</body>") true t = none :=
    findTagGroup_none (fun _ _ _ => trivial) hlt
      (fun c s' hc => pmatchCI_lt_false hc)
  have e_script : scanRun (tryBlock (str "<script") (str "</script>")) t = t :=
    scanRun_id (fun c hc s' => tryBlock_none (pmatchCI_lt_false (hne_lt c hc)))
  have e_style : scanRun (tryBlock (str "<style") (str "</style>")) t = t :=
    scanRun_id (fun c hc s' => tryBlock_none (pmatchCI_lt_false (hne_lt c hc)))
  have e_header : scanRun (tryBlock (str "<header") (str "</header>")) t = t :=
    scanRun_id (fun c hc s' => tryBlock_none (pmatchCI_lt_false (hne_lt c hc)))
  have e_footer : scanRun (tryBlock (str "<footer") (str "</footer>")) t = t :=
    scanRun_id (fun c hc s' => tryBlock_none (pmatchCI_lt_false (hne_lt c hc)))
  have e_tp : scanRun tryTitlepage t = t :=
    scanRun_id (fun c hc s' => tryTitlepage_none (pmatchCI_lt_false (hne_lt c hc)))
  have e_sec : scanRun (tryOpenTag (str "<section") []) t = t :=
    scanRun_id (fun c hc s' => tryOpenTag_none (pmatchCI_lt_false (hne_lt c hc)))
  have e_secc : scanRun (tryLitCI (str "</section>") []) t = t :=
    scanRun_id (fun c hc s' => tryLitCI_none (pmatchCI_lt_false (hne_lt c hc)))
  have e_div : scanRun (tryOpenTag (str "<div") []) t = t :=
    scanRun_id (fun c hc s' => tryOpenTag_none (pmatchCI_lt_false (hne_lt c hc)))
  have e_divc : scanRun (tryLitCI (str "</div>") []) t = t :=
    scanRun_id (fun c hc s' => tryLitCI_none (pmatchCI_lt_false (hne_lt c hc)))
  have e_crlf : scanRun tryCrlf t = t :=
    scanRun_id (fun c hc s' => tryCrlf_none (hne_cr c hc) (hne_nl c hc))
  have e_coll : collapseWS t = t := collapse_id hws hadj
  have e_ol : scanRun (tryOlLi (str "<ol") (str "<ol><li")) t = t :=
    scanRun_id (fun c hc s' => tryOlLi_none (pmatchCI_lt_false (hne_lt c hc)))
  have e_ul : scanRun (tryOlLi (str "<ul") (str "<ul><li")) t = t :=
    scanRun_id (fun c hc s' => tryOlLi_none (pmatchCI_lt_false (hne_lt c hc)))
  have e_li : scanRun (tryOpenTag (str "<li") (str "\n• ")) t = t :=
    scanRun_id (fun c hc s' => tryOpenTag_none (pmatchCI_lt_false (hne_lt c hc)))
  have e_lic : scanRun (tryLitCI (str "</li>") []) t = t :=
    scanRun_id (fun c hc s' => tryLitCI_none (pmatchCI_lt_false (hne_lt c hc)))
  have e_olw : scanRun (tryWrap2 (str "</ol") (str "<ol") (str "\n")) t = t :=
    scanRun_id (fun c hc s' => tryWrap2_none
      (pmatchCI_lt_false (hne_lt c hc)) (pmatchCI_lt_false (hne_lt c hc)))
  have e_ulw : scanRun (tryWrap2 (str "</ul") (str "<ul") (str "\n")) t = t :=
    scanRun_id (fun c hc s' => tryWrap2_none
      (pmatchCI_lt_false (hne_lt c hc)) (pmatchCI_lt_false (hne_lt c hc)))
  have e_nav : scanRun (tryWrap2 (str "</nav") (str "<nav") []) t = t :=
    scanRun_id (fun c hc s' => tryWrap2_none
      (pmatchCI_lt_false (hne_lt c hc)) (pmatchCI_lt_false (hne_lt c hc)))
  have e_a : scanRun tryAnchor t = t :=
    scanRun_id (fun c hc s' => tryAnchor_none (pmatchCI_lt_false (hne_lt c hc)))
  have e_pp : scanRun tryPP t = t :=
    scanRun_id (fun c hc s' => tryPP_none (pmatchCI_lt_false (hne_lt c hc)))
  have e_pc : scanRun (tryLitCI (str "</p>") (str "\n\n")) t = t :=
    scanRun_id (fun c hc s' => tryLitCI_none (pmatchCI_lt_false (hne_lt c hc)))
  have e_po : scanRun (tryOpenTag (str "<p") []) t = t :=
    scanRun_id (fun c hc s' => tryOpenTag_none (pmatchCI_lt_false (hne_lt c hc)))
  have e_br : scanRun tryBr t = t :=
    scanRun_id (fun c hc s' => tryBr_none (pmatchCI_lt_false (hne_lt c hc)))
  have e_ent : decodeEntities t = t := by
    rw [decodeEntities_eq]
    rw [show replaceAll (str "&nbsp;") (str " ") t = t from
      scanRun_id (fun c hc s' => tryLit_amp_none (hne_amp c hc))]
    rw [show replaceAll (str "&amp;") (str "&") t = t from
      scanRun_id (fun c hc s' => tryLit_amp_none (hne_amp c hc))]
    rw [show replaceAll (str "&lt;") (str "<") t = t from
      scanRun_id (fun c hc s' => tryLit_amp_none (hne_amp c hc))]
    rw [show replaceAll (str "&gt;") (str ">") t = t from
      scanRun_id (fun c hc s' => tryLit_amp_none (hne_amp c hc))]
    rw [show replaceAll (str "&quot;") (str "\"") t = t from
      scanRun_id (fun c hc s' => tryLit_amp_none (hne_amp c hc))]
    rw [show replaceAll (str "&#39;") (str "'") t = t from
      scanRun_id (fun c hc s' => tryLit_amp_none (hne_amp c hc))]
    rw [show replaceAll (str "&apos;") (str "'") t = t from
      scanRun_id (fun c hc s' => tryLit_amp_none (hne_amp c hc))]
    rw [show replaceAll (str "&mdash;") (str "—") t = t from
      scanRun_id (fun c hc s' => tryLit_amp_none (hne_amp c hc))]
    rw [show replaceAll (str "&ndash;") (str "–") t = t from
      scanRun_id (fun c hc s' => tryLit_amp_none (hne_amp c hc))]
    rw [show replaceAll (str "&hellip;") (str "…") t = t from
      scanRun_id (fun c hc s' => tryLit_amp_none (hne_amp c hc))]
    rw [show replaceAll (str "&rsquo;") (str "'") t = t from
      scanRun_id (fun c hc s' => tryLit_amp_none (hne_amp c hc))]
    rw [show replaceAll (str "&lsquo;") (str "'") t = t from
      scanRun_id (fun c hc s' => tryLit_amp_none (hne_amp c hc))]
    rw [show replaceAll (str "&rdquo;") (str "\"") t = t from
      scanRun_id (fun c hc s' => tryLit_amp_none (hne_amp c hc))]
    exact scanRun_id (fun c hc s' => tryLit_amp_none (hne_amp c hc))
  have e_strip : scanRun tryStrip t = t :=
    scanRun_id (fun c hc s' => tryStrip_none (hne_lt c hc))
  have e_trim : trimWS t = t := trim_id hws hhead hlast
  have e_line : joinNl ((splitNl t).map (fun l => collapseWS (trimWS l))) = t := by
    rw [splitNl_single hnl]
    simp only [List.map_cons, List.map_nil]
    rw [e_trim, e_coll]
    rfl
  have e_nl3 : scanRun tryNl3 t = t :=
    scanRun_id (fun c hc s' => tryNl3_none (hne_nl c hc))
  have e_bul : scanRun tryBulletLine t = t :=
    scanRun_id (fun c hc s' => tryBulletLine_none (hne_nl c hc))
  have e_nnn : scanRun tryNnn t = t :=
    scanRun_id (fun c hc s' => tryNnn_none (hne_nl c hc))
  simp only [extractTextFromHtml, e_body, e_script, e_style, e_header,
    e_footer, e_tp, e_sec, e_secc, e_div, e_divc, e_crlf, e_coll, e_ol, e_ul,
    e_li, e_lic, e_olw, e_ulw, e_nav, e_a, e_pp, e_pc, e_po, e_br, e_ent,
    e_strip, e_line, e_nl3, e_bul, e_nnn, e_trim]

/-- **C1, witness.** The amended idempotence at a concrete normalized
single-line input. -/
theorem C1_witness :
    plainNormal (str "Hello world.") = true ∧
      extractTextFromHtml (str "Hello world.") none = str "Hello world." :=
  ⟨by rfl, C1_transduce_id_on_plain (str "Hello world.") (by rfl)⟩

end Epub
